import Mathlib

/-!
GATT discovery state machine of `btle/btle_discovery.h`.

A shallow embedding of the header `src/btle/btle_discovery.h`: the two
descriptor structs, the session state of `ServiceDiscovery`, and its inline
member functions.  Machine integers are natural numbers; every place where the
C++ code narrows a value (assignment to a 16-bit handle, `uint8_t` increment,
1-bit bit-field initialisation) carries an explicit remainder.  Array reads go
through an `Option`-returning lookup, and a read outside the array makes the
enclosing step fail with `Fault.outOfBounds`.
-/

namespace BtleDiscovery

/-! ## Integer widths -/

/-- Modelled from the spec: `Gap::Handle_t` is declared in `Gap.h`, which is not
among the sources.  Attribute handles are 16-bit unsigned values (the header
itself uses `uint16_t` for `SRV_DISC_START_HANDLE` and `connHandle`), so a value
stored into a `Gap::Handle_t` is reduced modulo `2^16`. -/
def HANDLE_MODULUS : Nat := 65536

/-- Number of values of a `uint8_t` (the four index and count fields). -/
def UINT8_MODULUS : Nat := 256

/-- Value kept by a `Gap::Handle_t` variable initialised from the `int` value `v`. -/
def toHandle (v : Nat) : Nat := v % HANDLE_MODULUS

/-- Value kept by a `uint8_t` variable assigned the `int` value `v`. -/
def toUint8 (v : Nat) : Nat := v % UINT8_MODULUS

/-- Value kept by a `uint8_t x : 1` bit-field initialised from the `int` value `v`:
an unsigned bit-field of width one keeps the value modulo `2`. -/
def toBit (v : Nat) : Nat := v % 2

/-! ## Descriptors -/

/-- The struct `DiscoveredService`. -/
structure DiscoveredService where
  uuid : Nat
  startHandle : Nat
  endHandle : Nat
  deriving DecidableEq, Repr

/-- The method `DiscoveredService::setup`: three plain assignments. -/
def DiscoveredService.setup (_self : DiscoveredService) (uuidIn start finish : Nat) :
    DiscoveredService :=
  { uuid := uuidIn, startHandle := start, endHandle := finish }

/-- The all-zero service left by `memset`. -/
def DiscoveredService.zero : DiscoveredService :=
  { uuid := 0, startHandle := 0, endHandle := 0 }

def BROADCAST_PROPERTY_MASK : Nat := 0x01
def READ_PROPERTY_MASK : Nat := 0x02
def WRITE_WO_RESPONSE_PROPERTY_MASK : Nat := 0x04
def WRITE_PROPERTY_MASK : Nat := 0x08
def NOTIFY_PROPERTY_MASK : Nat := 0x10
def INDICATE_PROPERTY_MASK : Nat := 0x20
def AUTH_SIGNED_PROPERTY_MASK : Nat := 0x40

/-- The struct `DiscoveredCharacteristic::Properties_t`: seven 1-bit fields. -/
structure Properties_t where
  broadcast : Nat
  read : Nat
  write_wo_resp : Nat
  write : Nat
  notify : Nat
  indicate : Nat
  auth_signed_wr : Nat
  deriving DecidableEq, Repr

/-- The default constructor `Properties_t()`. -/
def Properties_t.zero : Properties_t :=
  { broadcast := 0, read := 0, write_wo_resp := 0, write := 0, notify := 0,
    indicate := 0, auth_signed_wr := 0 }

/-- The constructor `Properties_t(uint8_t props)`: each 1-bit field is initialised
from the `int` value `props & MASK`, which the bit-field narrows to one bit. -/
def Properties_t.fromByte (props : Nat) : Properties_t :=
  { broadcast := toBit (props &&& BROADCAST_PROPERTY_MASK)
    read := toBit (props &&& READ_PROPERTY_MASK)
    write_wo_resp := toBit (props &&& WRITE_WO_RESPONSE_PROPERTY_MASK)
    write := toBit (props &&& WRITE_PROPERTY_MASK)
    notify := toBit (props &&& NOTIFY_PROPERTY_MASK)
    indicate := toBit (props &&& INDICATE_PROPERTY_MASK)
    auth_signed_wr := toBit (props &&& AUTH_SIGNED_PROPERTY_MASK) }

/-- The struct `DiscoveredCharacteristic`. -/
structure DiscoveredCharacteristic where
  uuid : Nat
  props : Properties_t
  declHandle : Nat
  valueHandle : Nat
  deriving DecidableEq, Repr

/-- The method `DiscoveredCharacteristic::setup`: four plain assignments. -/
def DiscoveredCharacteristic.setup (_self : DiscoveredCharacteristic) (uuidIn : Nat)
    (propsIn : Properties_t) (declHandleIn valueHandleIn : Nat) : DiscoveredCharacteristic :=
  { uuid := uuidIn, props := propsIn, declHandle := declHandleIn, valueHandle := valueHandleIn }

/-- The all-zero characteristic left by `memset`. -/
def DiscoveredCharacteristic.zero : DiscoveredCharacteristic :=
  { uuid := 0, props := Properties_t.zero, declHandle := 0, valueHandle := 0 }

/-! ## Fixed-size buffers -/

/-- Capacity of the `services` array. -/
def BLE_DB_DISCOVERY_MAX_SRV : Nat := 4

/-- Capacity of the `characteristics` array. -/
def BLE_DB_DISCOVERY_MAX_CHAR_PER_SRV : Nat := 4

/-- The start handle of the first service-discovery request. -/
def SRV_DISC_START_HANDLE : Nat := 0x0001

/-- A C array of four elements. -/
structure Array4 (α : Type) where
  e0 : α
  e1 : α
  e2 : α
  e3 : α
  deriving DecidableEq, Repr

/-- The array whose four elements are all `x`. -/
def Array4.fill {α : Type} (x : α) : Array4 α :=
  { e0 := x, e1 := x, e2 := x, e3 := x }

/-- The read `a[i]` for an `int` index: `none` when the index is outside `0..3`. -/
def Array4.get? {α : Type} (a : Array4 α) (i : Int) : Option α :=
  if i = 0 then some a.e0
  else if i = 1 then some a.e1
  else if i = 2 then some a.e2
  else if i = 3 then some a.e3
  else none

/-- The elements in index order. -/
def Array4.toList {α : Type} (a : Array4 α) : List α :=
  [a.e0, a.e1, a.e2, a.e3]

/-! ## Session state -/

/-- The data members of the class `ServiceDiscovery`. -/
structure ServiceDiscovery where
  services : Array4 DiscoveredService
  characteristics : Array4 DiscoveredCharacteristic
  connHandle : Nat
  currSrvInd : Nat
  srvCount : Nat
  currCharInd : Nat
  charCount : Nat
  serviceDiscoveryInProgress : Bool
  characteristicDiscoveryInProgress : Bool
  deriving DecidableEq, Repr

/-- Every field holds a value of its C++ type: handles and UUIDs fit 16 bits,
indices and counts fit 8 bits. -/
def ServiceDiscovery.InRange (s : ServiceDiscovery) : Prop :=
  (∀ x ∈ s.services.toList,
      x.uuid < HANDLE_MODULUS ∧ x.startHandle < HANDLE_MODULUS ∧ x.endHandle < HANDLE_MODULUS) ∧
  (∀ c ∈ s.characteristics.toList,
      c.uuid < HANDLE_MODULUS ∧ c.declHandle < HANDLE_MODULUS ∧ c.valueHandle < HANDLE_MODULUS) ∧
  s.connHandle < HANDLE_MODULUS ∧
  s.currSrvInd < UINT8_MODULUS ∧ s.srvCount < UINT8_MODULUS ∧
  s.currCharInd < UINT8_MODULUS ∧ s.charCount < UINT8_MODULUS

instance (s : ServiceDiscovery) : Decidable s.InRange := by
  unfold ServiceDiscovery.InRange
  infer_instance

/-- The two progress flags are not both set. -/
def ServiceDiscovery.PhasesExclusive (s : ServiceDiscovery) : Prop :=
  ¬ (s.serviceDiscoveryInProgress = true ∧ s.characteristicDiscoveryInProgress = true)

instance (s : ServiceDiscovery) : Decidable s.PhasesExclusive := by
  unfold ServiceDiscovery.PhasesExclusive
  infer_instance

/-! ## Observable effects -/

/-- What a member function does besides updating the state: the lines it prints
and the requests it hands to the SoftDevice, in program order. -/
inductive Event where
  /-- The line printed by `terminate`. -/
  | endOfServiceDiscovery
  /-- The line printed at the service callback site: uuid, start and end handle. -/
  | serviceFound (uuid startHandle endHandle : Nat)
  /-- The line printed at the characteristic callback site: uuid and value handle. -/
  | characteristicFound (uuid valueHandle : Nat)
  /-- A call of `sd_ble_gattc_characteristics_discover`. -/
  | characteristicsDiscover (connHandle startHandle endHandle : Nat)
  /-- The line printing what `sd_ble_gattc_characteristics_discover` returned. -/
  | charDiscoveryReturned (code : Nat)
  /-- A call of `sd_ble_gattc_primary_services_discover`. -/
  | primaryServicesDiscover (connHandle startHandle : Nat)
  /-- The line printing what `sd_ble_gattc_primary_services_discover` returned. -/
  | servicesDiscoverReturned (code : Nat)
  deriving DecidableEq, Repr

/-- Whether an event is a request handed to the SoftDevice. -/
def Event.isRequest : Event → Bool
  | .characteristicsDiscover _ _ _ => true
  | .primaryServicesDiscover _ _ => true
  | _ => false

/-- The requests among a list of events, in order. -/
def requests (out : List Event) : List Event :=
  out.filter Event.isRequest

/-- The return code of an accepted SoftDevice call. -/
def NRF_SUCCESS : Nat := 0

/-- The two SoftDevice calls the header uses (declared in `ble_gattc.h`, not among
the sources), taken as a parameter: each maps its arguments to a return code. -/
structure SoftDevice where
  sd_ble_gattc_characteristics_discover : Nat → Nat → Nat → Nat
  sd_ble_gattc_primary_services_discover : Nat → Nat → Nat

/-- Why a step has no resulting state. -/
inductive Fault where
  /-- An array was read outside its bounds. -/
  | outOfBounds
  /-- A loop was still running when its iteration budget ran out. -/
  | outOfFuel
  deriving DecidableEq, Repr

/-- The outcome of a step: the new state and the events, or a fault. -/
abbrev Outcome := Except Fault (ServiceDiscovery × List Event)

/-! ## Member functions -/

/-- The method `terminate`. -/
def terminate (s : ServiceDiscovery) : ServiceDiscovery × List Event :=
  ({ s with serviceDiscoveryInProgress := false }, [Event.endOfServiceDiscovery])

/-- The method `terminateCharacteristicDiscovery`. -/
def terminateCharacteristicDiscovery (s : ServiceDiscovery) : ServiceDiscovery :=
  { s with
    characteristicDiscoveryInProgress := false
    serviceDiscoveryInProgress := true
    currSrvInd := toUint8 (s.currSrvInd + 1) }

/-- The method `resetDiscoveredServices`. -/
def resetDiscoveredServices (s : ServiceDiscovery) : ServiceDiscovery :=
  { s with
    srvCount := 0
    currSrvInd := 0
    services := Array4.fill DiscoveredService.zero }

/-- The method `resetDiscoveredCharacteristics`. -/
def resetDiscoveredCharacteristics (s : ServiceDiscovery) : ServiceDiscovery :=
  { s with
    charCount := 0
    currCharInd := 0
    characteristics := Array4.fill DiscoveredCharacteristic.zero }

/-- The method `serviceDiscoveryStarted`. -/
def serviceDiscoveryStarted (s : ServiceDiscovery) (connectionHandle : Nat) :
    ServiceDiscovery :=
  { resetDiscoveredServices { s with connHandle := connectionHandle } with
    serviceDiscoveryInProgress := true
    characteristicDiscoveryInProgress := false }

/-- The method `characteristicDiscoveryStarted`. -/
def characteristicDiscoveryStarted (s : ServiceDiscovery) (connectionHandle : Nat) :
    ServiceDiscovery :=
  { resetDiscoveredCharacteristics { s with connHandle := connectionHandle } with
    characteristicDiscoveryInProgress := true
    serviceDiscoveryInProgress := false }

/-- The `while` loop of `progressCharacteristicDiscovery`.  The first argument
bounds the number of iterations; the loop faults with `outOfFuel` if its
condition still holds when the bound is used up. -/
def characteristicLoop : Nat → ServiceDiscovery → Outcome
  | 0, s =>
    if s.characteristicDiscoveryInProgress && decide (s.currCharInd < s.charCount) then
      Except.error Fault.outOfFuel
    else Except.ok (s, [])
  | fuel + 1, s =>
    if s.characteristicDiscoveryInProgress && decide (s.currCharInd < s.charCount) then
      match s.characteristics.get? (s.currCharInd : Int) with
      | none => Except.error Fault.outOfBounds
      | some c =>
        match characteristicLoop fuel { s with currCharInd := toUint8 (s.currCharInd + 1) } with
        | Except.error e => Except.error e
        | Except.ok (s', out) => Except.ok (s', Event.characteristicFound c.uuid c.valueHandle :: out)
    else Except.ok (s, [])

/-- The part of `progressCharacteristicDiscovery` after its loop. -/
def characteristicPageEnd (sd : SoftDevice) (s : ServiceDiscovery) : Outcome :=
  if s.characteristicDiscoveryInProgress then
    match s.characteristics.get? ((s.currCharInd : Int) - 1) with
    | none => Except.error Fault.outOfBounds
    | some c =>
      let startHandle := toHandle (c.valueHandle + 1)
      match s.services.get? (s.currSrvInd : Int) with
      | none => Except.error Fault.outOfBounds
      | some srv =>
        let endHandle := srv.endHandle
        let s1 := resetDiscoveredCharacteristics s
        if startHandle < endHandle then
          Except.ok (s1,
            [Event.characteristicsDiscover s1.connHandle startHandle endHandle,
             Event.charDiscoveryReturned
               (sd.sd_ble_gattc_characteristics_discover s1.connHandle startHandle endHandle)])
        else Except.ok (terminateCharacteristicDiscovery s1, [])
  else Except.ok (s, [])

/-- The method `progressCharacteristicDiscovery`.  Each iteration of its loop
increases `currCharInd`, so `charCount - currCharInd` iterations are enough. -/
def progressCharacteristicDiscovery (sd : SoftDevice) (s : ServiceDiscovery) : Outcome :=
  match characteristicLoop (s.charCount - s.currCharInd) s with
  | Except.error e => Except.error e
  | Except.ok (s1, out1) =>
    match characteristicPageEnd sd s1 with
    | Except.error e => Except.error e
    | Except.ok (s2, out2) => Except.ok (s2, out1 ++ out2)

/-- The signature of `launchCharacteristicDiscovery` as a state transformer:
state, connection handle, start handle, end handle. -/
abbrev Launch := ServiceDiscovery → Nat → Nat → Nat → ServiceDiscovery × List Event

/-- Modelled from the spec: `launchCharacteristicDiscovery` is only declared in the
header and its body is not among the sources.  The spec says the service step
"begin[s] characteristic discovery over that service's handle range"; this is
`characteristicDiscoveryStarted` on the connection followed by one
characteristic-discovery request for the range. -/
def launchCharacteristicDiscovery (_sd : SoftDevice) : Launch :=
  fun s connectionHandle startHandle endHandle =>
    (characteristicDiscoveryStarted s connectionHandle,
     [Event.characteristicsDiscover connectionHandle startHandle endHandle])

/-- The `while` loop of `progressServiceDiscovery`, over the body of
`launchCharacteristicDiscovery` as a parameter.  The loop need not terminate for
every such body, so the first argument bounds the number of iterations. -/
def serviceLoop (launch : Launch) : Nat → ServiceDiscovery → Outcome
  | 0, s =>
    if s.serviceDiscoveryInProgress && decide (s.currSrvInd < s.srvCount) then
      Except.error Fault.outOfFuel
    else Except.ok (s, [])
  | fuel + 1, s =>
    if s.serviceDiscoveryInProgress && decide (s.currSrvInd < s.srvCount) then
      match s.services.get? (s.currSrvInd : Int) with
      | none => Except.error Fault.outOfBounds
      | some srv =>
        match serviceLoop launch fuel (launch s s.connHandle srv.startHandle srv.endHandle).1 with
        | Except.error e => Except.error e
        | Except.ok (s', out) =>
          Except.ok (s', Event.serviceFound srv.uuid srv.startHandle srv.endHandle ::
            ((launch s s.connHandle srv.startHandle srv.endHandle).2 ++ out))
    else Except.ok (s, [])

/-- The part of `progressServiceDiscovery` after its loop. -/
def servicePageEnd (sd : SoftDevice) (s : ServiceDiscovery) : Outcome :=
  if s.serviceDiscoveryInProgress && decide (s.srvCount > 0) && decide (s.currSrvInd > 0) then
    match s.services.get? ((s.currSrvInd : Int) - 1) with
    | none => Except.error Fault.outOfBounds
    | some srv =>
      let endHandle := srv.endHandle
      let s1 := resetDiscoveredServices s
      Except.ok (s1,
        [Event.primaryServicesDiscover s1.connHandle endHandle,
         Event.servicesDiscoverReturned
           (sd.sd_ble_gattc_primary_services_discover s1.connHandle endHandle)])
  else Except.ok (s, [])

/-- The method `progressServiceDiscovery`, with `fuel` bounding the iterations of
its loop. -/
def progressServiceDiscovery (launch : Launch) (sd : SoftDevice) (fuel : Nat)
    (s : ServiceDiscovery) : Outcome :=
  match serviceLoop launch fuel s with
  | Except.error e => Except.error e
  | Except.ok (s1, out1) =>
    match servicePageEnd sd s1 with
    | Except.error e => Except.error e
    | Except.ok (s2, out2) => Except.ok (s2, out1 ++ out2)

/-- The step yields a state satisfying `P`, unless it reads outside an array (it
never runs out of fuel). -/
def Outcome.Yields (r : Outcome) (P : ServiceDiscovery → Prop) : Prop :=
  match r with
  | Except.ok (s', _) => P s'
  | Except.error e => e = Fault.outOfBounds

/-- The lines the loop of `progressCharacteristicDiscovery` prints for a page:
one per buffer entry from `currCharInd` up to `charCount`, in index order. -/
def pageLines (s : ServiceDiscovery) : List Event :=
  ((s.characteristics.toList.drop s.currCharInd).take (s.charCount - s.currCharInd)).map
    (fun c => Event.characteristicFound c.uuid c.valueHandle)

/-- Running a step `n` times in a row, collecting the events. -/
def iterateStep (step : ServiceDiscovery → Outcome) : Nat → ServiceDiscovery → Outcome
  | 0, s => Except.ok (s, [])
  | n + 1, s =>
    match step s with
    | Except.error e => Except.error e
    | Except.ok (s1, out1) =>
      match iterateStep step n s1 with
      | Except.error e => Except.error e
      | Except.ok (s2, out2) => Except.ok (s2, out1 ++ out2)

/-! ## Concrete states used as examples -/

/-- A SoftDevice that accepts every request. -/
def acceptingSoftDevice : SoftDevice :=
  { sd_ble_gattc_characteristics_discover := fun _ _ _ => NRF_SUCCESS
    sd_ble_gattc_primary_services_discover := fun _ _ => NRF_SUCCESS }

/-- A SoftDevice that rejects every request with code `1`. -/
def rejectingSoftDevice : SoftDevice :=
  { sd_ble_gattc_characteristics_discover := fun _ _ _ => 1
    sd_ble_gattc_primary_services_discover := fun _ _ => 1 }

/-- The service `uuid 0x1800, start 1, end 3` of the spec's scenario. -/
def genericAccessService : DiscoveredService :=
  { uuid := 0x1800, startHandle := 1, endHandle := 3 }

/-- The characteristic `uuid 0x2A00, props READ, decl 2, value 3` of the spec's scenario. -/
def deviceNameCharacteristic : DiscoveredCharacteristic :=
  { uuid := 0x2A00, props := Properties_t.fromByte 0x02, declHandle := 2, valueHandle := 3 }

/-- Session on connection 7 after the service page `[0x1800, 1, 3]` has been
visited: service discovery active, page exhausted. -/
def exhaustedServicePage : ServiceDiscovery :=
  { services :=
      { e0 := genericAccessService, e1 := DiscoveredService.zero,
        e2 := DiscoveredService.zero, e3 := DiscoveredService.zero }
    characteristics := Array4.fill DiscoveredCharacteristic.zero
    connHandle := 7, currSrvInd := 1, srvCount := 1, currCharInd := 0, charCount := 0
    serviceDiscoveryInProgress := true, characteristicDiscoveryInProgress := false }

/-- Session on connection 7 with an empty service page. -/
def emptyServicePage : ServiceDiscovery :=
  { services := Array4.fill DiscoveredService.zero
    characteristics := Array4.fill DiscoveredCharacteristic.zero
    connHandle := 7, currSrvInd := 0, srvCount := 0, currCharInd := 0, charCount := 0
    serviceDiscoveryInProgress := true, characteristicDiscoveryInProgress := false }

/-- Session on connection 7 expanding service `[1, 3]`, holding the
characteristic page `[0x2A00, decl 2, value 3]`, not yet visited. -/
def scenarioCharacteristicPage : ServiceDiscovery :=
  { services :=
      { e0 := genericAccessService, e1 := DiscoveredService.zero,
        e2 := DiscoveredService.zero, e3 := DiscoveredService.zero }
    characteristics :=
      { e0 := deviceNameCharacteristic, e1 := DiscoveredCharacteristic.zero,
        e2 := DiscoveredCharacteristic.zero, e3 := DiscoveredCharacteristic.zero }
    connHandle := 7, currSrvInd := 0, srvCount := 1, currCharInd := 0, charCount := 1
    serviceDiscoveryInProgress := false, characteristicDiscoveryInProgress := true }

/-- Session on connection 7 expanding service `[1, 10]`, holding the
characteristic page `[0x2A00, decl 2, value 3]`: handles 4 to 10 remain. -/
def partialCharacteristicPage : ServiceDiscovery :=
  { scenarioCharacteristicPage with
    services :=
      { e0 := { uuid := 0x1800, startHandle := 1, endHandle := 10 },
        e1 := DiscoveredService.zero, e2 := DiscoveredService.zero,
        e3 := DiscoveredService.zero } }

/-- Session on connection 7 expanding the last service of a database,
`[0xFFF0, 0xFFFF]`, holding a page whose characteristic has its value at the
highest handle `0xFFFF`. -/
def topHandleCharacteristicPage : ServiceDiscovery :=
  { services :=
      { e0 := { uuid := 0x180F, startHandle := 0xFFF0, endHandle := 0xFFFF },
        e1 := DiscoveredService.zero, e2 := DiscoveredService.zero,
        e3 := DiscoveredService.zero }
    characteristics :=
      { e0 := { uuid := 0x2A19, props := Properties_t.fromByte 0x02,
                declHandle := 0xFFFE, valueHandle := 0xFFFF },
        e1 := DiscoveredCharacteristic.zero, e2 := DiscoveredCharacteristic.zero,
        e3 := DiscoveredCharacteristic.zero }
    connHandle := 7, currSrvInd := 0, srvCount := 1, currCharInd := 0, charCount := 1
    serviceDiscoveryInProgress := false, characteristicDiscoveryInProgress := true }

/-- An idle session: both flags clear. -/
def idleSession : ServiceDiscovery :=
  { scenarioCharacteristicPage with characteristicDiscoveryInProgress := false }

/-- Session on connection 7 right after the characteristic phase of service
`[1, 3]` has begun: the characteristic page is still empty. -/
def emptyCharacteristicPage : ServiceDiscovery :=
  { scenarioCharacteristicPage with
    characteristics := Array4.fill DiscoveredCharacteristic.zero
    charCount := 0 }

/-- Session on connection 7 expanding service `[1, 4]`, holding the
characteristic page `[0x2A00, decl 2, value 3]`: exactly handle 4 remains. -/
def boundaryCharacteristicPage : ServiceDiscovery :=
  { scenarioCharacteristicPage with
    services :=
      { e0 := { uuid := 0x1800, startHandle := 1, endHandle := 4 },
        e1 := DiscoveredService.zero, e2 := DiscoveredService.zero,
        e3 := DiscoveredService.zero } }

/-- The state of `partialCharacteristicPage` with `currCharInd = 2` beyond
`charCount = 1`. -/
def overrunCharacteristicPage : ServiceDiscovery :=
  { partialCharacteristicPage with currCharInd := 2 }

/-- Session on connection 7 holding the service page `[0x1800, 1, 3]`, not yet
visited. -/
def freshServicePage : ServiceDiscovery :=
  { exhaustedServicePage with currSrvInd := 0 }

/-- A characteristic page of two entries inside service `[1, 10]`:
`[0x2A00, decl 2, value 3]` and `[0x2A01, decl 4, value 5]`. -/
def twoCharacteristicPage : ServiceDiscovery :=
  { partialCharacteristicPage with
    characteristics :=
      { e0 := deviceNameCharacteristic,
        e1 := { uuid := 0x2A01, props := Properties_t.fromByte 0x02,
                declHandle := 4, valueHandle := 5 },
        e2 := DiscoveredCharacteristic.zero, e3 := DiscoveredCharacteristic.zero }
    charCount := 2 }

/-- What `progressCharacteristicDiscovery` may do to the service bookkeeping of
the state `s` it starts from: the connection handle, `srvCount` and the service
buffer are kept; `currSrvInd` is kept whenever the characteristic flag keeps its
value, and when the flag goes from true to false (the terminating branch) it is
the old index plus one, modulo 256. -/
def ServiceBookkeepingKept (s s' : ServiceDiscovery) : Prop :=
  s'.connHandle = s.connHandle ∧ s'.srvCount = s.srvCount ∧ s'.services = s.services ∧
  (s'.characteristicDiscoveryInProgress = s.characteristicDiscoveryInProgress →
    s'.currSrvInd = s.currSrvInd) ∧
  (s'.currSrvInd ≠ s.currSrvInd →
    s.characteristicDiscoveryInProgress = true ∧
    s'.characteristicDiscoveryInProgress = false ∧
    s'.serviceDiscoveryInProgress = true) ∧
  (s.characteristicDiscoveryInProgress = true →
    s'.characteristicDiscoveryInProgress = false →
    s'.currSrvInd = (s.currSrvInd + 1) % 256)

/-! ## Buffer lookups -/

theorem Array4.get?_mem {α : Type} (a : Array4 α) (i : Int) (x : α)
    (h : a.get? i = some x) : x ∈ a.toList := by
  unfold Array4.get? at h
  simp only [Array4.toList, List.mem_cons, List.mem_singleton]
  split_ifs at h <;> simp_all

theorem Array4.get?_isSome {α : Type} (a : Array4 α) (i : Int) (h0 : 0 ≤ i) (h4 : i < 4) :
    ∃ x, a.get? i = some x := by
  unfold Array4.get?
  split_ifs <;> first | exact ⟨_, rfl⟩ | omega

theorem Array4.get?_eq_none {α : Type} (a : Array4 α) (i : Int) (h : i < 0 ∨ 4 ≤ i) :
    a.get? i = none := by
  unfold Array4.get?
  split_ifs <;> first | rfl | omega

theorem Array4.get?_ofNat {α : Type} (a : Array4 α) (i : Nat) :
    a.get? (i : Int) = a.toList[i]? := by
  unfold Array4.get? Array4.toList
  match i with
  | 0 => rfl
  | 1 => rfl
  | 2 => rfl
  | 3 => rfl
  | n + 4 =>
    have h : ((n + 4 : Nat) : Int) = (n : Int) + 4 := by push_cast; ring
    rw [h]
    split_ifs <;> first | omega | simp

/-! ## The loops -/

theorem characteristicLoop_idle (fuel : Nat) (s : ServiceDiscovery)
    (h : ¬ (s.characteristicDiscoveryInProgress = true ∧ s.currCharInd < s.charCount)) :
    characteristicLoop fuel s = Except.ok (s, []) := by
  cases fuel <;> simp [characteristicLoop, h]

theorem serviceLoop_idle (launch : Launch) (fuel : Nat) (s : ServiceDiscovery)
    (h : ¬ (s.serviceDiscoveryInProgress = true ∧ s.currSrvInd < s.srvCount)) :
    serviceLoop launch fuel s = Except.ok (s, []) := by
  cases fuel <;> simp [serviceLoop, h]

/-- With fuel `charCount - currCharInd` the loop visits the rest of the page: it
prints `pageLines` and stops with `currCharInd = charCount`, provided the page
fits the buffer. -/
theorem characteristicLoop_run (n : Nat) (s : ServiceDiscovery)
    (hcip : s.characteristicDiscoveryInProgress = true)
    (h4 : s.charCount ≤ BLE_DB_DISCOVERY_MAX_CHAR_PER_SRV)
    (hn : s.currCharInd + n = s.charCount) :
    characteristicLoop n s = Except.ok ({ s with currCharInd := s.charCount }, pageLines s) := by
  induction n generalizing s with
  | zero =>
    have hi : s.currCharInd = s.charCount := by omega
    rw [characteristicLoop_idle 0 s (by omega)]
    obtain ⟨svcs, chars, conn, si, sc, ci, cc, sip, cip⟩ := s
    simp only at hi
    subst hi
    simp [pageLines]
  | succ n ih =>
    have hlt : s.currCharInd < s.charCount := by omega
    have h4 : s.charCount ≤ 4 := h4
    obtain ⟨c, hc⟩ := Array4.get?_isSome s.characteristics (s.currCharInd : Int)
      (by omega) (by omega)
    have hu : toUint8 (s.currCharInd + 1) = s.currCharInd + 1 := by
      unfold toUint8 UINT8_MODULUS
      omega
    have hstep := ih { s with currCharInd := toUint8 (s.currCharInd + 1) } hcip h4
      (by simp only [hu]; omega)
    have hl : s.characteristics.toList[s.currCharInd]? = some c := by
      rw [← Array4.get?_ofNat]; exact hc
    have hlen : s.currCharInd < s.characteristics.toList.length := by
      simp only [Array4.toList, List.length_cons, List.length_nil]; omega
    have hd : s.characteristics.toList.drop s.currCharInd
        = c :: s.characteristics.toList.drop (s.currCharInd + 1) := by
      rw [List.drop_eq_getElem_cons hlen]
      rw [List.getElem?_eq_getElem hlen] at hl
      simp only [Option.some.injEq] at hl
      rw [hl]
    have hk : s.charCount - s.currCharInd = (s.charCount - (s.currCharInd + 1)) + 1 := by omega
    unfold characteristicLoop
    rw [hstep]
    simp [pageLines, hcip, hlt, hc, hu, hd, hk]

/-- With enough fuel the loop either reads outside the buffer or stops having
changed nothing but `currCharInd`, and it issues no request. -/
theorem characteristicLoop_sound (n : Nat) (s : ServiceDiscovery)
    (hn : s.charCount ≤ s.currCharInd + n) :
    characteristicLoop n s = Except.error Fault.outOfBounds ∨
    ∃ k out, characteristicLoop n s = Except.ok ({ s with currCharInd := k }, out) ∧
      requests out = [] ∧
      ¬ (s.characteristicDiscoveryInProgress = true ∧ k < s.charCount) := by
  induction n generalizing s with
  | zero =>
    right
    refine ⟨s.currCharInd, [], ?_, rfl, by omega⟩
    rw [characteristicLoop_idle 0 s (by omega)]
  | succ n ih =>
    by_cases hcond : s.characteristicDiscoveryInProgress = true ∧ s.currCharInd < s.charCount
    · obtain ⟨hcip, hlt⟩ := hcond
      by_cases hb : s.currCharInd < 4
      · obtain ⟨c, hc⟩ := Array4.get?_isSome s.characteristics (s.currCharInd : Int)
          (by omega) (by omega)
        have hu : toUint8 (s.currCharInd + 1) = s.currCharInd + 1 := by
          unfold toUint8 UINT8_MODULUS
          omega
        rcases ih { s with currCharInd := toUint8 (s.currCharInd + 1) }
          (by simp only [hu]; omega) with hbad | ⟨k, out, hok, hreq, hexit⟩
        · left
          unfold characteristicLoop
          rw [hbad]
          simp [hcip, hlt, hc]
        · right
          refine ⟨k, Event.characteristicFound c.uuid c.valueHandle :: out, ?_, ?_, hexit⟩
          · unfold characteristicLoop
            rw [hok]
            simp [hcip, hlt, hc]
          · simpa [requests, Event.isRequest] using hreq
      · left
        have hnone := Array4.get?_eq_none s.characteristics (s.currCharInd : Int)
          (Or.inr (by omega))
        unfold characteristicLoop
        simp [hcip, hlt, hnone]
    · right
      refine ⟨s.currCharInd, [], ?_, rfl, ?_⟩
      · rw [characteristicLoop_idle (n + 1) s hcond]
      · exact hcond

/-- The lines of a page contain no request. -/
theorem requests_pageLines (s : ServiceDiscovery) : requests (pageLines s) = [] := by
  unfold requests pageLines
  rw [List.filter_eq_nil_iff]
  intro a ha
  obtain ⟨c, -, rfl⟩ := List.mem_map.mp ha
  simp [Event.isRequest]

/-- The requests of two runs of events, in order. -/
theorem requests_append (a b : List Event) : requests (a ++ b) = requests a ++ requests b := by
  simp [requests]

/-! ## The page-end branches of `progressCharacteristicDiscovery` -/

/-- With the characteristic phase active and the page within the buffer, the
step is its page end run on the state whose `currCharInd` is `charCount`, after
the lines of the page. -/
theorem progressCharacteristicDiscovery_active (sd : SoftDevice) (s : ServiceDiscovery)
    (hcip : s.characteristicDiscoveryInProgress = true)
    (h4 : s.charCount ≤ BLE_DB_DISCOVERY_MAX_CHAR_PER_SRV)
    (hi : s.currCharInd ≤ s.charCount) :
    progressCharacteristicDiscovery sd s =
      match characteristicPageEnd sd { s with currCharInd := s.charCount } with
      | Except.error e => Except.error e
      | Except.ok (s2, out2) => Except.ok (s2, pageLines s ++ out2) := by
  unfold progressCharacteristicDiscovery
  rw [characteristicLoop_run (s.charCount - s.currCharInd) s hcip h4 (by omega)]

/-- The re-request branch: the next start handle, as stored in 16 bits, is below
the service's end handle. -/
theorem progressCharacteristicDiscovery_request (sd : SoftDevice) (s : ServiceDiscovery)
    (c : DiscoveredCharacteristic) (srv : DiscoveredService)
    (hcip : s.characteristicDiscoveryInProgress = true)
    (h4 : s.charCount ≤ BLE_DB_DISCOVERY_MAX_CHAR_PER_SRV)
    (hi : s.currCharInd ≤ s.charCount)
    (hc : s.characteristics.get? ((s.charCount : Int) - 1) = some c)
    (hs : s.services.get? (s.currSrvInd : Int) = some srv)
    (hlt : toHandle (c.valueHandle + 1) < srv.endHandle) :
    progressCharacteristicDiscovery sd s =
      Except.ok (resetDiscoveredCharacteristics s,
        pageLines s ++
          [Event.characteristicsDiscover s.connHandle (toHandle (c.valueHandle + 1)) srv.endHandle,
           Event.charDiscoveryReturned (sd.sd_ble_gattc_characteristics_discover s.connHandle
             (toHandle (c.valueHandle + 1)) srv.endHandle)]) := by
  rw [progressCharacteristicDiscovery_active sd s hcip h4 hi]
  simp [characteristicPageEnd, hcip, hc, hs, hlt, resetDiscoveredCharacteristics]

/-- The hand-off branch: the next start handle, as stored in 16 bits, is not
below the service's end handle. -/
theorem progressCharacteristicDiscovery_handoff (sd : SoftDevice) (s : ServiceDiscovery)
    (c : DiscoveredCharacteristic) (srv : DiscoveredService)
    (hcip : s.characteristicDiscoveryInProgress = true)
    (h4 : s.charCount ≤ BLE_DB_DISCOVERY_MAX_CHAR_PER_SRV)
    (hi : s.currCharInd ≤ s.charCount)
    (hc : s.characteristics.get? ((s.charCount : Int) - 1) = some c)
    (hs : s.services.get? (s.currSrvInd : Int) = some srv)
    (hge : srv.endHandle ≤ toHandle (c.valueHandle + 1)) :
    progressCharacteristicDiscovery sd s =
      Except.ok (terminateCharacteristicDiscovery (resetDiscoveredCharacteristics s),
        pageLines s) := by
  rw [progressCharacteristicDiscovery_active sd s hcip h4 hi]
  have hnot : ¬ toHandle (c.valueHandle + 1) < srv.endHandle := by omega
  simp [characteristicPageEnd, hcip, hc, hs, hnot, resetDiscoveredCharacteristics,
    terminateCharacteristicDiscovery]

/-- The page end keeps the flags apart. -/
theorem characteristicPageEnd_exclusive (sd : SoftDevice) (s : ServiceDiscovery)
    (h : s.PhasesExclusive) :
    (characteristicPageEnd sd s).Yields ServiceDiscovery.PhasesExclusive := by
  unfold characteristicPageEnd
  by_cases hcip : s.characteristicDiscoveryInProgress = true
  · simp only [hcip, if_true]
    cases hc : s.characteristics.get? ((s.currCharInd : Int) - 1) with
    | none => simp [Outcome.Yields]
    | some c =>
      cases hs : s.services.get? (s.currSrvInd : Int) with
      | none => simp [Outcome.Yields]
      | some srv =>
        simp only
        split_ifs
        · simpa [Outcome.Yields, ServiceDiscovery.PhasesExclusive,
            resetDiscoveredCharacteristics] using h
        · simp [Outcome.Yields, ServiceDiscovery.PhasesExclusive,
            terminateCharacteristicDiscovery]
  · simpa [hcip, Outcome.Yields] using h

/-! ## The page end of `progressServiceDiscovery` -/

/-- When the loop does not run, the service step is its page end. -/
theorem progressServiceDiscovery_no_loop (launch : Launch) (sd : SoftDevice) (fuel : Nat)
    (s : ServiceDiscovery)
    (h : ¬ (s.serviceDiscoveryInProgress = true ∧ s.currSrvInd < s.srvCount)) :
    progressServiceDiscovery launch sd fuel s = servicePageEnd sd s := by
  unfold progressServiceDiscovery
  rw [serviceLoop_idle launch fuel s h]
  simp only [List.nil_append]
  cases servicePageEnd sd s with
  | error e => rfl
  | ok r => rfl

/-- The next-page branch: the request starts at the last service's end handle. -/
theorem progressServiceDiscovery_next_page (launch : Launch) (sd : SoftDevice) (fuel : Nat)
    (s : ServiceDiscovery) (srv : DiscoveredService)
    (hsip : s.serviceDiscoveryInProgress = true)
    (h1 : 1 ≤ s.srvCount) (hi : s.currSrvInd = s.srvCount)
    (hs : s.services.get? ((s.srvCount : Int) - 1) = some srv) :
    progressServiceDiscovery launch sd fuel s =
      Except.ok (resetDiscoveredServices s,
        [Event.primaryServicesDiscover s.connHandle srv.endHandle,
         Event.servicesDiscoverReturned
           (sd.sd_ble_gattc_primary_services_discover s.connHandle srv.endHandle)]) := by
  rw [progressServiceDiscovery_no_loop launch sd fuel s (by omega)]
  have hpos : 0 < s.srvCount := by omega
  simp [servicePageEnd, hsip, hi, hpos, hs, resetDiscoveredServices]

/-- The page end keeps the flags apart. -/
theorem servicePageEnd_exclusive (sd : SoftDevice) (s : ServiceDiscovery)
    (h : s.PhasesExclusive) :
    (servicePageEnd sd s).Yields ServiceDiscovery.PhasesExclusive := by
  unfold servicePageEnd
  split_ifs
  · cases hs : s.services.get? ((s.currSrvInd : Int) - 1) with
    | none => simp [Outcome.Yields]
    | some srv =>
      simpa [Outcome.Yields, ServiceDiscovery.PhasesExclusive, resetDiscoveredServices] using h
  · simpa [Outcome.Yields] using h

/-! ## Service pagination (C1) -/

/-- C1 (the code at the failing input): with service discovery active and the page
`[uuid 0x1800, start 1, end 3]` exhausted, `progressServiceDiscovery` resets the
service buffer and issues exactly one primary-service discovery request on
connection 7, and that request starts at handle 3, the end handle of the last
service itself, not at 3 + 1 = 4. -/
theorem service_next_page_starts_at_last_end_handle (launch : Launch) (sd : SoftDevice)
    (fuel : Nat) :
    progressServiceDiscovery launch sd fuel exhaustedServicePage =
      Except.ok (resetDiscoveredServices exhaustedServicePage,
        [Event.primaryServicesDiscover 7 3,
         Event.servicesDiscoverReturned (sd.sd_ble_gattc_primary_services_discover 7 3)]) ∧
    genericAccessService.endHandle + 1 = 4 ∧
    ∀ s' out, progressServiceDiscovery launch sd fuel exhaustedServicePage = Except.ok (s', out) →
      requests out ≠ [Event.primaryServicesDiscover 7 4] := by
  have hrun := progressServiceDiscovery_next_page launch sd fuel exhaustedServicePage
    genericAccessService rfl (by decide) rfl rfl
  refine ⟨hrun, rfl, ?_⟩
  intro s' out h
  rw [hrun] at h
  simp only [Except.ok.injEq, Prod.mk.injEq] at h
  rw [← h.2]
  simp [requests, Event.isRequest, exhaustedServicePage, genericAccessService]

/-! ## Characteristic hand-off (C2) -/

/-- C2 (the code at the failing input): the page holds one characteristic whose
value handle is `0xFFFF`, inside the service `[0xFFF0, 0xFFFF]`, so
`valueHandle + 1 = 0x10000 ≥ endHandle`.  The 16-bit start handle wraps to 0,
which is below the end handle: `progressCharacteristicDiscovery` issues a request
for the range `[0, 0xFFFF]`, stays in the characteristic phase and does not
advance `currSrvInd`. -/
theorem handoff_missed_when_value_handle_is_top (sd : SoftDevice) :
    topHandleCharacteristicPage.characteristicDiscoveryInProgress = true ∧
    topHandleCharacteristicPage.charCount = 1 ∧
    topHandleCharacteristicPage.currSrvInd = 0 ∧
    topHandleCharacteristicPage.characteristics.e0.valueHandle + 1 ≥
      topHandleCharacteristicPage.services.e0.endHandle ∧
    progressCharacteristicDiscovery sd topHandleCharacteristicPage =
      Except.ok (resetDiscoveredCharacteristics topHandleCharacteristicPage,
        [Event.characteristicFound 0x2A19 0xFFFF,
         Event.characteristicsDiscover 7 0 0xFFFF,
         Event.charDiscoveryReturned (sd.sd_ble_gattc_characteristics_discover 7 0 0xFFFF)]) ∧
    (resetDiscoveredCharacteristics topHandleCharacteristicPage).characteristicDiscoveryInProgress
      = true ∧
    (resetDiscoveredCharacteristics topHandleCharacteristicPage).serviceDiscoveryInProgress
      = false ∧
    (resetDiscoveredCharacteristics topHandleCharacteristicPage).currSrvInd = 0 := by
  refine ⟨rfl, rfl, rfl, by decide, ?_, rfl, rfl, rfl⟩
  exact progressCharacteristicDiscovery_request sd topHandleCharacteristicPage
    topHandleCharacteristicPage.characteristics.e0 topHandleCharacteristicPage.services.e0
    rfl (by decide) (by decide) rfl rfl (by decide)

/-- Below the top handle the hand-off happens as described: if the last value
handle is less than `0xFFFF` and `valueHandle + 1 ≥ endHandle`, no request is
issued, the characteristic phase ends, the service phase resumes and `currSrvInd`
advances by one. -/
theorem characteristic_handoff_below_top_handle (sd : SoftDevice) (s : ServiceDiscovery)
    (c : DiscoveredCharacteristic) (srv : DiscoveredService)
    (hcip : s.characteristicDiscoveryInProgress = true)
    (h4 : s.charCount ≤ BLE_DB_DISCOVERY_MAX_CHAR_PER_SRV)
    (hi : s.currCharInd ≤ s.charCount)
    (hsrv : s.currSrvInd < BLE_DB_DISCOVERY_MAX_SRV)
    (hc : s.characteristics.get? ((s.charCount : Int) - 1) = some c)
    (hs : s.services.get? (s.currSrvInd : Int) = some srv)
    (htop : c.valueHandle < 0xFFFF)
    (hge : c.valueHandle + 1 ≥ srv.endHandle) :
    ∃ s' out, progressCharacteristicDiscovery sd s = Except.ok (s', out) ∧
      requests out = [] ∧
      s'.characteristicDiscoveryInProgress = false ∧
      s'.serviceDiscoveryInProgress = true ∧
      s'.currSrvInd = s.currSrvInd + 1 := by
  have hh : toHandle (c.valueHandle + 1) = c.valueHandle + 1 := by
    unfold toHandle HANDLE_MODULUS
    omega
  have hsrv4 : s.currSrvInd < 4 := hsrv
  refine ⟨_, _, progressCharacteristicDiscovery_handoff sd s c srv hcip h4 hi hc hs
    (by omega), requests_pageLines s, rfl, rfl, ?_⟩
  · simp only [terminateCharacteristicDiscovery, resetDiscoveredCharacteristics,
      toUint8, UINT8_MODULUS]
    omega

/-- The scenario of the spec: service `[1, 3]` with the page
`[uuid 0x2A00, decl 2, value 3]` issues no request for `[4, 3]` and moves
`currSrvInd` from 0 to 1. -/
theorem scenario_handoff (sd : SoftDevice) :
    progressCharacteristicDiscovery sd scenarioCharacteristicPage =
      Except.ok
        ({ scenarioCharacteristicPage with
            characteristics := Array4.fill DiscoveredCharacteristic.zero
            charCount := 0, currCharInd := 0, currSrvInd := 1
            serviceDiscoveryInProgress := true
            characteristicDiscoveryInProgress := false },
         [Event.characteristicFound 0x2A00 3]) :=
  rfl

/-! ## Characteristic pagination (C3) -/

/-- C3: with the characteristic phase active, `1 ≤ charCount ≤ 4`,
`currCharInd ≤ charCount`, `currSrvInd < 4` and `v + 1 < e` for the last
characteristic's value handle `v` and the current service's end handle `e`,
`progressCharacteristicDiscovery` returns, issues exactly one request, a
characteristic discovery on `connHandle` for the range `[v + 1, e]`, leaves both
progress flags and `currSrvInd` unchanged, and leaves the characteristic buffer
reset (`charCount = 0`, `currCharInd = 0`, every entry zero). -/
theorem characteristic_pagination_request (sd : SoftDevice) (s : ServiceDiscovery)
    (c : DiscoveredCharacteristic) (srv : DiscoveredService)
    (hr : s.InRange)
    (hcip : s.characteristicDiscoveryInProgress = true)
    (_h1 : 1 ≤ s.charCount)
    (h4 : s.charCount ≤ BLE_DB_DISCOVERY_MAX_CHAR_PER_SRV)
    (hi : s.currCharInd ≤ s.charCount)
    (_hsrv : s.currSrvInd < BLE_DB_DISCOVERY_MAX_SRV)
    (hc : s.characteristics.get? ((s.charCount : Int) - 1) = some c)
    (hs : s.services.get? (s.currSrvInd : Int) = some srv)
    (hlt : c.valueHandle + 1 < srv.endHandle) :
    ∃ s' out, progressCharacteristicDiscovery sd s = Except.ok (s', out) ∧
      requests out =
        [Event.characteristicsDiscover s.connHandle (c.valueHandle + 1) srv.endHandle] ∧
      s'.characteristicDiscoveryInProgress = s.characteristicDiscoveryInProgress ∧
      s'.serviceDiscoveryInProgress = s.serviceDiscoveryInProgress ∧
      s'.currSrvInd = s.currSrvInd ∧
      s'.charCount = 0 ∧ s'.currCharInd = 0 ∧
      s'.characteristics = Array4.fill DiscoveredCharacteristic.zero ∧
      (∀ x ∈ s'.characteristics.toList, x = DiscoveredCharacteristic.zero) := by
  have hend : srv.endHandle < HANDLE_MODULUS :=
    (hr.1 srv (Array4.get?_mem _ _ _ hs)).2.2
  have hh : toHandle (c.valueHandle + 1) = c.valueHandle + 1 := by
    unfold toHandle
    exact Nat.mod_eq_of_lt (by omega)
  have hrun := progressCharacteristicDiscovery_request sd s c srv hcip h4 hi hc hs (by omega)
  rw [hh] at hrun
  refine ⟨_, _, hrun, ?_, rfl, rfl, rfl, rfl, rfl, rfl, ?_⟩
  · rw [requests_append, requests_pageLines]
    simp [requests, Event.isRequest]
  · intro x hx
    simpa [resetDiscoveredCharacteristics, Array4.fill, Array4.toList] using hx

/-- C3 at a concrete state: service `[1, 10]` with the page
`[uuid 0x2A00, decl 2, value 3]` on connection 7 leads to one request for `[4, 10]`. -/
theorem characteristic_pagination_request_witness :
    ∃ s' out,
      progressCharacteristicDiscovery acceptingSoftDevice partialCharacteristicPage
        = Except.ok (s', out) ∧
      requests out = [Event.characteristicsDiscover 7 4 10] ∧
      s'.characteristicDiscoveryInProgress = true ∧
      s'.serviceDiscoveryInProgress = false ∧
      s'.currSrvInd = 0 ∧
      s'.charCount = 0 ∧ s'.currCharInd = 0 ∧
      s'.characteristics = Array4.fill DiscoveredCharacteristic.zero ∧
      (∀ x ∈ s'.characteristics.toList, x = DiscoveredCharacteristic.zero) :=
  characteristic_pagination_request acceptingSoftDevice partialCharacteristicPage
    deviceNameCharacteristic { uuid := 0x1800, startHandle := 1, endHandle := 10 }
    (by decide) rfl (by decide) (by decide) (by decide) (by decide) rfl rfl (by decide)

/-! ## Empty service page (C4) -/

/-- C4 (counterexample): on an empty service page with service discovery active,
`progressServiceDiscovery` issues no request but also leaves
`serviceDiscoveryInProgress` set: the state is returned unchanged. -/
theorem empty_service_page_stays_active :
    emptyServicePage.serviceDiscoveryInProgress = true ∧
    emptyServicePage.srvCount = 0 ∧ emptyServicePage.currSrvInd = 0 ∧
    progressServiceDiscovery (launchCharacteristicDiscovery acceptingSoftDevice)
      acceptingSoftDevice 1 emptyServicePage = Except.ok (emptyServicePage, []) ∧
    ¬ (emptyServicePage.serviceDiscoveryInProgress = false) := by
  refine ⟨rfl, rfl, rfl, rfl, by decide⟩

/-- C4 (amended): with service discovery active and an empty page (`srvCount = 0`,
`currSrvInd = 0`), `progressServiceDiscovery` returns, issues no request, prints
nothing and leaves the state unchanged, so `serviceDiscoveryInProgress` is still
true afterwards. -/
theorem empty_service_page_is_left_unchanged (launch : Launch) (sd : SoftDevice) (fuel : Nat)
    (s : ServiceDiscovery)
    (hsip : s.serviceDiscoveryInProgress = true)
    (h0 : s.srvCount = 0) (hi : s.currSrvInd = 0) :
    progressServiceDiscovery launch sd fuel s = Except.ok (s, []) ∧
    ∀ s' out, progressServiceDiscovery launch sd fuel s = Except.ok (s', out) →
      requests out = [] ∧ s'.serviceDiscoveryInProgress = true := by
  have hrun : progressServiceDiscovery launch sd fuel s = Except.ok (s, []) := by
    rw [progressServiceDiscovery_no_loop launch sd fuel s (by omega)]
    simp [servicePageEnd, h0]
  refine ⟨hrun, ?_⟩
  intro s' out h
  rw [hrun] at h
  simp only [Except.ok.injEq, Prod.mk.injEq] at h
  rw [← h.1, ← h.2]
  exact ⟨rfl, hsip⟩

/-- C4 (amended) at the empty page on connection 7. -/
theorem empty_service_page_is_left_unchanged_witness :
    progressServiceDiscovery (launchCharacteristicDiscovery acceptingSoftDevice)
      acceptingSoftDevice 1 emptyServicePage = Except.ok (emptyServicePage, []) :=
  (empty_service_page_is_left_unchanged (launchCharacteristicDiscovery acceptingSoftDevice)
    acceptingSoftDevice 1 emptyServicePage rfl rfl rfl).1

/-! ## Terminate (C5) -/

/-- C5 (counterexample): `terminate` in the middle of the characteristic phase
leaves `characteristicDiscoveryInProgress` true and both buffers as they were. -/
theorem terminate_keeps_characteristic_phase :
    scenarioCharacteristicPage.characteristicDiscoveryInProgress = true ∧
    (terminate scenarioCharacteristicPage).1.characteristicDiscoveryInProgress = true ∧
    (terminate scenarioCharacteristicPage).1.srvCount = 1 ∧
    (terminate scenarioCharacteristicPage).1.charCount = 1 ∧
    (terminate scenarioCharacteristicPage).1.services.e0 = genericAccessService ∧
    (terminate scenarioCharacteristicPage).1.characteristics.e0 = deviceNameCharacteristic ∧
    (terminate scenarioCharacteristicPage).1.services ≠ Array4.fill DiscoveredService.zero := by
  refine ⟨rfl, rfl, rfl, rfl, rfl, rfl, by decide⟩

/-- C5 (amended): after `terminate`, `serviceDiscoveryInProgress` is false and
every other field is unchanged: `characteristicDiscoveryInProgress`, both
buffers, both counts, both indices and the connection handle. -/
theorem terminate_clears_only_service_flag (s : ServiceDiscovery) :
    (terminate s).1.serviceDiscoveryInProgress = false ∧
    (terminate s).1.characteristicDiscoveryInProgress = s.characteristicDiscoveryInProgress ∧
    (terminate s).1.services = s.services ∧
    (terminate s).1.characteristics = s.characteristics ∧
    (terminate s).1.srvCount = s.srvCount ∧
    (terminate s).1.charCount = s.charCount ∧
    (terminate s).1.currSrvInd = s.currSrvInd ∧
    (terminate s).1.currCharInd = s.currCharInd ∧
    (terminate s).1.connHandle = s.connHandle ∧
    requests (terminate s).2 = [] :=
  ⟨rfl, rfl, rfl, rfl, rfl, rfl, rfl, rfl, rfl, rfl⟩

/-! ## Phase mutual exclusion (C6) -/

/-- The characteristic step keeps the flags apart. -/
theorem progressCharacteristicDiscovery_exclusive (sd : SoftDevice) (s : ServiceDiscovery)
    (h : s.PhasesExclusive) :
    (progressCharacteristicDiscovery sd s).Yields ServiceDiscovery.PhasesExclusive := by
  unfold progressCharacteristicDiscovery
  rcases characteristicLoop_sound (s.charCount - s.currCharInd) s (by omega) with
    hbad | ⟨k, out, hok, -, -⟩
  · rw [hbad]
    rfl
  · rw [hok]
    have hk : ({ s with currCharInd := k } : ServiceDiscovery).PhasesExclusive := h
    have hend := characteristicPageEnd_exclusive sd { s with currCharInd := k } hk
    simp only
    revert hend
    cases characteristicPageEnd sd { s with currCharInd := k } with
    | error e => exact id
    | ok r => exact id

/-- The service step keeps the flags apart and needs one unit of fuel, for every
body of `launchCharacteristicDiscovery` that leaves `serviceDiscoveryInProgress`
false. -/
theorem progressServiceDiscovery_exclusive (launch : Launch) (sd : SoftDevice) (fuel : Nat)
    (s : ServiceDiscovery)
    (hl : ∀ t c a b, (launch t c a b).1.serviceDiscoveryInProgress = false)
    (h : s.PhasesExclusive) :
    (progressServiceDiscovery launch sd (fuel + 1) s).Yields
      ServiceDiscovery.PhasesExclusive := by
  by_cases hcond : s.serviceDiscoveryInProgress = true ∧ s.currSrvInd < s.srvCount
  · unfold progressServiceDiscovery serviceLoop
    simp only [hcond.1, hcond.2, decide_True, Bool.and_self, if_true]
    cases hs : s.services.get? (s.currSrvInd : Int) with
    | none => rfl
    | some srv =>
      have hoff := hl s s.connHandle srv.startHandle srv.endHandle
      simp only
      rw [serviceLoop_idle launch fuel _ (by simp [hoff])]
      simp [servicePageEnd, hoff, Outcome.Yields, ServiceDiscovery.PhasesExclusive]
  · rw [progressServiceDiscovery_no_loop launch sd (fuel + 1) s hcond]
    exact servicePageEnd_exclusive sd s h

/-- C6: if the two progress flags are not both true, they are again not both true
after each of `serviceDiscoveryStarted`, `characteristicDiscoveryStarted`,
`terminate`, `terminateCharacteristicDiscovery`, `resetDiscoveredServices`,
`resetDiscoveredCharacteristics`, `progressCharacteristicDiscovery` and
`progressServiceDiscovery`.  The two progress steps yield such a state unless
they read outside a buffer; the service step is taken with at least one unit of
fuel and any body of `launchCharacteristicDiscovery` that, like
`characteristicDiscoveryStarted`, leaves `serviceDiscoveryInProgress` false. -/
theorem phase_exclusion_is_preserved (launch : Launch) (sd : SoftDevice) (s : ServiceDiscovery)
    (hl : ∀ t c a b, (launch t c a b).1.serviceDiscoveryInProgress = false)
    (h : s.PhasesExclusive) :
    (∀ c, (serviceDiscoveryStarted s c).PhasesExclusive) ∧
    (∀ c, (characteristicDiscoveryStarted s c).PhasesExclusive) ∧
    (terminate s).1.PhasesExclusive ∧
    (terminateCharacteristicDiscovery s).PhasesExclusive ∧
    (resetDiscoveredServices s).PhasesExclusive ∧
    (resetDiscoveredCharacteristics s).PhasesExclusive ∧
    (progressCharacteristicDiscovery sd s).Yields ServiceDiscovery.PhasesExclusive ∧
    (∀ fuel, (progressServiceDiscovery launch sd (fuel + 1) s).Yields
      ServiceDiscovery.PhasesExclusive) := by
  refine ⟨?_, ?_, ?_, ?_, h, h, progressCharacteristicDiscovery_exclusive sd s h,
    fun fuel => progressServiceDiscovery_exclusive launch sd fuel s hl h⟩
  · intro c
    simp [ServiceDiscovery.PhasesExclusive, serviceDiscoveryStarted]
  · intro c
    simp [ServiceDiscovery.PhasesExclusive, characteristicDiscoveryStarted]
  · simp [ServiceDiscovery.PhasesExclusive, terminate]
  · simp [ServiceDiscovery.PhasesExclusive, terminateCharacteristicDiscovery]

/-- C6 at the scenario's characteristic page, with `launchCharacteristicDiscovery`
as modelled from the spec: the flags stay apart after every operation. -/
theorem phase_exclusion_is_preserved_witness :
    scenarioCharacteristicPage.PhasesExclusive ∧
    (∀ c, (serviceDiscoveryStarted scenarioCharacteristicPage c).PhasesExclusive) ∧
    (∀ c, (characteristicDiscoveryStarted scenarioCharacteristicPage c).PhasesExclusive) ∧
    (terminate scenarioCharacteristicPage).1.PhasesExclusive ∧
    (terminateCharacteristicDiscovery scenarioCharacteristicPage).PhasesExclusive ∧
    (resetDiscoveredServices scenarioCharacteristicPage).PhasesExclusive ∧
    (resetDiscoveredCharacteristics scenarioCharacteristicPage).PhasesExclusive ∧
    (progressCharacteristicDiscovery acceptingSoftDevice scenarioCharacteristicPage).Yields
      ServiceDiscovery.PhasesExclusive ∧
    (∀ fuel, (progressServiceDiscovery (launchCharacteristicDiscovery acceptingSoftDevice)
      acceptingSoftDevice (fuel + 1) scenarioCharacteristicPage).Yields
      ServiceDiscovery.PhasesExclusive) :=
  ⟨by decide,
   phase_exclusion_is_preserved (launchCharacteristicDiscovery acceptingSoftDevice)
     acceptingSoftDevice scenarioCharacteristicPage (fun _ _ _ _ => rfl) (by decide)⟩

/-! ## Property flags (C7) -/

/-- A value masked with `2^(k+1)` is even, so a 1-bit field keeps 0 of it. -/
theorem toBit_and_two_pow_succ (p k : Nat) : toBit (p &&& 2 ^ (k + 1)) = 0 := by
  unfold toBit
  have hb : (p &&& 2 ^ (k + 1)).testBit 0 = false := by
    rw [Nat.testBit_and, Nat.testBit_two_pow]
    simp
  rw [Nat.testBit_zero, decide_eq_false_iff_not] at hb
  have := Nat.mod_two_eq_zero_or_one (p &&& 2 ^ (k + 1))
  omega

/-- What the constructor `Properties_t(uint8_t)` computes for every byte: only
`broadcast` can be set, and it is bit 0 of the byte. -/
theorem Properties_t.fromByte_eq (p : Nat) :
    Properties_t.fromByte p = { Properties_t.zero with broadcast := p % 2 } := by
  have h1 := toBit_and_two_pow_succ p 0
  have h2 := toBit_and_two_pow_succ p 1
  have h3 := toBit_and_two_pow_succ p 2
  have h4 := toBit_and_two_pow_succ p 3
  have h5 := toBit_and_two_pow_succ p 4
  have h6 := toBit_and_two_pow_succ p 5
  norm_num at h1 h2 h3 h4 h5 h6
  have h0 : toBit (p % 2) = p % 2 := by
    unfold toBit
    omega
  simp [Properties_t.fromByte, Properties_t.zero, BROADCAST_PROPERTY_MASK, READ_PROPERTY_MASK,
    WRITE_WO_RESPONSE_PROPERTY_MASK, WRITE_PROPERTY_MASK, NOTIFY_PROPERTY_MASK,
    INDICATE_PROPERTY_MASK, AUTH_SIGNED_PROPERTY_MASK, h0, h1, h2, h3, h4, h5, h6]

/-- C7 (the code at the failing input): the byte `0x02` (READ) has bit 1 set, yet
`Properties_t(0x02)` has `read = 0`; with every bit set, `Properties_t(0xFF)`
has only `broadcast = 1`.  For every byte the six fields above `broadcast` are
0, because `props & MASK` is even for every mask but `0x01` and the 1-bit field
keeps its lowest bit. -/
theorem read_flag_is_lost :
    (0x02 : Nat).testBit 1 = true ∧
    (Properties_t.fromByte 0x02).read = 0 ∧
    Properties_t.fromByte 0xFF = { Properties_t.zero with broadcast := 1 } ∧
    ∀ p, (Properties_t.fromByte p).broadcast = p % 2 ∧
      (Properties_t.fromByte p).read = 0 ∧
      (Properties_t.fromByte p).write_wo_resp = 0 ∧
      (Properties_t.fromByte p).write = 0 ∧
      (Properties_t.fromByte p).notify = 0 ∧
      (Properties_t.fromByte p).indicate = 0 ∧
      (Properties_t.fromByte p).auth_signed_wr = 0 := by
  refine ⟨by decide, by decide, by decide, ?_⟩
  intro p
  rw [Properties_t.fromByte_eq]
  exact ⟨rfl, rfl, rfl, rfl, rfl, rfl, rfl⟩

/-! ## Transport rejection (C8) -/

/-- C8 (counterexample): the SoftDevice rejects the request with code 1, in the
re-request branch of `progressCharacteristicDiscovery` and in the next-page
branch of `progressServiceDiscovery`.  The code is printed and nothing else
happens: the phase that issued the request is still in progress and the other
buffer still holds its entries. -/
theorem rejected_request_keeps_session_running :
    rejectingSoftDevice.sd_ble_gattc_characteristics_discover 7 4 10 ≠ NRF_SUCCESS ∧
    progressCharacteristicDiscovery rejectingSoftDevice partialCharacteristicPage =
      Except.ok (resetDiscoveredCharacteristics partialCharacteristicPage,
        [Event.characteristicFound 0x2A00 3, Event.characteristicsDiscover 7 4 10,
         Event.charDiscoveryReturned 1]) ∧
    (resetDiscoveredCharacteristics partialCharacteristicPage).characteristicDiscoveryInProgress
      = true ∧
    (resetDiscoveredCharacteristics partialCharacteristicPage).services
      ≠ Array4.fill DiscoveredService.zero ∧
    rejectingSoftDevice.sd_ble_gattc_primary_services_discover 7 3 ≠ NRF_SUCCESS ∧
    progressServiceDiscovery (launchCharacteristicDiscovery rejectingSoftDevice)
        rejectingSoftDevice 1 exhaustedServicePage =
      Except.ok (resetDiscoveredServices exhaustedServicePage,
        [Event.primaryServicesDiscover 7 3, Event.servicesDiscoverReturned 1]) ∧
    (resetDiscoveredServices exhaustedServicePage).serviceDiscoveryInProgress = true := by
  refine ⟨by decide, rfl, rfl, by decide, by decide, rfl, rfl⟩

/-- C8 (amended): a non-success return code of the SoftDevice is only printed.
In the re-request branch of `progressCharacteristicDiscovery` the resulting state
is the one every SoftDevice leaves: `characteristicDiscoveryInProgress` is still
true, `serviceDiscoveryInProgress` is unchanged, the characteristic buffer is
reset and the service buffer is untouched.  In the next-page branch of
`progressServiceDiscovery` the resulting state is again the one every SoftDevice
leaves: `serviceDiscoveryInProgress` is still true,
`characteristicDiscoveryInProgress` is unchanged, the service buffer is reset and
the characteristic buffer is untouched. -/
theorem transport_rejection_is_only_logged (launch : Launch) (sd : SoftDevice) (fuel : Nat)
    (s : ServiceDiscovery) (c : DiscoveredCharacteristic) (srv last : DiscoveredService) :
    (s.characteristicDiscoveryInProgress = true →
      1 ≤ s.charCount → s.charCount ≤ BLE_DB_DISCOVERY_MAX_CHAR_PER_SRV →
      s.currCharInd ≤ s.charCount → s.currSrvInd < BLE_DB_DISCOVERY_MAX_SRV →
      s.characteristics.get? ((s.charCount : Int) - 1) = some c →
      s.services.get? (s.currSrvInd : Int) = some srv →
      toHandle (c.valueHandle + 1) < srv.endHandle →
      sd.sd_ble_gattc_characteristics_discover s.connHandle (toHandle (c.valueHandle + 1))
        srv.endHandle ≠ NRF_SUCCESS →
      ∃ s' out, progressCharacteristicDiscovery sd s = Except.ok (s', out) ∧
        requests out =
          [Event.characteristicsDiscover s.connHandle (toHandle (c.valueHandle + 1))
            srv.endHandle] ∧
        Event.charDiscoveryReturned (sd.sd_ble_gattc_characteristics_discover s.connHandle
          (toHandle (c.valueHandle + 1)) srv.endHandle) ∈ out ∧
        s'.characteristicDiscoveryInProgress = true ∧
        s'.serviceDiscoveryInProgress = s.serviceDiscoveryInProgress ∧
        s'.charCount = 0 ∧ s'.currCharInd = 0 ∧
        s'.characteristics = Array4.fill DiscoveredCharacteristic.zero ∧
        s'.services = s.services ∧ s'.srvCount = s.srvCount ∧
        s'.currSrvInd = s.currSrvInd ∧
        ∀ sd', ∃ out', progressCharacteristicDiscovery sd' s = Except.ok (s', out')) ∧
    (s.serviceDiscoveryInProgress = true →
      1 ≤ s.srvCount → s.currSrvInd = s.srvCount → s.srvCount ≤ BLE_DB_DISCOVERY_MAX_SRV →
      s.services.get? ((s.srvCount : Int) - 1) = some last →
      sd.sd_ble_gattc_primary_services_discover s.connHandle last.endHandle ≠ NRF_SUCCESS →
      ∃ s' out, progressServiceDiscovery launch sd fuel s = Except.ok (s', out) ∧
        requests out = [Event.primaryServicesDiscover s.connHandle last.endHandle] ∧
        Event.servicesDiscoverReturned
          (sd.sd_ble_gattc_primary_services_discover s.connHandle last.endHandle) ∈ out ∧
        s'.serviceDiscoveryInProgress = true ∧
        s'.characteristicDiscoveryInProgress = s.characteristicDiscoveryInProgress ∧
        s'.srvCount = 0 ∧ s'.currSrvInd = 0 ∧
        s'.services = Array4.fill DiscoveredService.zero ∧
        s'.characteristics = s.characteristics ∧ s'.charCount = s.charCount ∧
        s'.currCharInd = s.currCharInd ∧
        ∀ sd', ∃ out', progressServiceDiscovery launch sd' fuel s = Except.ok (s', out')) := by
  constructor
  · intro hcip _ h4 hi _ hc hs hlt _
    refine ⟨_, _, progressCharacteristicDiscovery_request sd s c srv hcip h4 hi hc hs hlt,
      ?_, ?_, hcip, rfl, rfl, rfl, rfl, rfl, rfl, rfl, ?_⟩
    · rw [requests_append, requests_pageLines]
      simp [requests, Event.isRequest]
    · simp
    · intro sd'
      exact ⟨_, progressCharacteristicDiscovery_request sd' s c srv hcip h4 hi hc hs hlt⟩
  · intro hsip h1 hi _ hs _
    refine ⟨_, _, progressServiceDiscovery_next_page launch sd fuel s last hsip h1 hi hs,
      ?_, ?_, hsip, rfl, rfl, rfl, rfl, rfl, rfl, rfl, ?_⟩
    · simp [requests, Event.isRequest]
    · simp
    · intro sd'
      exact ⟨_, progressServiceDiscovery_next_page launch sd' fuel s last hsip h1 hi hs⟩

/-- C8 (amended) at the rejected re-request for `[4, 10]` on connection 7: the
characteristic phase is still in progress afterwards. -/
theorem transport_rejection_is_only_logged_witness :
    ∃ s' out,
      progressCharacteristicDiscovery rejectingSoftDevice partialCharacteristicPage
        = Except.ok (s', out) ∧
      requests out = [Event.characteristicsDiscover 7 4 10] ∧
      Event.charDiscoveryReturned 1 ∈ out ∧
      s'.characteristicDiscoveryInProgress = true ∧
      s'.serviceDiscoveryInProgress = false ∧
      s'.charCount = 0 ∧ s'.currCharInd = 0 ∧
      s'.characteristics = Array4.fill DiscoveredCharacteristic.zero ∧
      s'.services = partialCharacteristicPage.services ∧ s'.srvCount = 1 ∧
      s'.currSrvInd = 0 ∧
      ∀ sd', ∃ out', progressCharacteristicDiscovery sd' partialCharacteristicPage
        = Except.ok (s', out') :=
  (transport_rejection_is_only_logged (launchCharacteristicDiscovery rejectingSoftDevice)
    rejectingSoftDevice 1 partialCharacteristicPage deviceNameCharacteristic
    { uuid := 0x1800, startHandle := 1, endHandle := 10 } DiscoveredService.zero).1
    rfl (by decide) (by decide) (by decide) (by decide) rfl rfl (by decide) (by decide)

/-! ## Progress steps outside their phase (C9) -/

/-- Repeating a step that returns the state unchanged and silent does nothing. -/
theorem iterateStep_of_noop (step : ServiceDiscovery → Outcome) (s : ServiceDiscovery)
    (h : step s = Except.ok (s, [])) (n : Nat) :
    iterateStep step n s = Except.ok (s, []) := by
  induction n with
  | zero => rfl
  | succ n ih => simp [iterateStep, h, ih]

/-- C9: with `serviceDiscoveryInProgress` false, `progressServiceDiscovery`
returns the identical state with no event at all (no line printed, no request),
and so does any number of repetitions; with `characteristicDiscoveryInProgress`
false the same holds for `progressCharacteristicDiscovery`. -/
theorem progress_outside_phase_is_noop (launch : Launch) (sd : SoftDevice) (fuel n : Nat)
    (s : ServiceDiscovery) :
    (s.serviceDiscoveryInProgress = false →
      progressServiceDiscovery launch sd fuel s = Except.ok (s, []) ∧
      iterateStep (progressServiceDiscovery launch sd fuel) n s = Except.ok (s, [])) ∧
    (s.characteristicDiscoveryInProgress = false →
      progressCharacteristicDiscovery sd s = Except.ok (s, []) ∧
      iterateStep (progressCharacteristicDiscovery sd) n s = Except.ok (s, [])) := by
  constructor
  · intro hoff
    have hrun : progressServiceDiscovery launch sd fuel s = Except.ok (s, []) := by
      rw [progressServiceDiscovery_no_loop launch sd fuel s (by simp [hoff])]
      simp [servicePageEnd, hoff]
    exact ⟨hrun, iterateStep_of_noop _ s hrun n⟩
  · intro hoff
    have hrun : progressCharacteristicDiscovery sd s = Except.ok (s, []) := by
      unfold progressCharacteristicDiscovery
      rw [characteristicLoop_idle _ s (by simp [hoff])]
      simp [characteristicPageEnd, hoff]
    exact ⟨hrun, iterateStep_of_noop _ s hrun n⟩

/-- C9 at the idle session: both steps, repeated five times, change nothing. -/
theorem progress_outside_phase_is_noop_witness :
    (progressServiceDiscovery (launchCharacteristicDiscovery acceptingSoftDevice)
        acceptingSoftDevice 0 idleSession = Except.ok (idleSession, []) ∧
      iterateStep (progressServiceDiscovery (launchCharacteristicDiscovery acceptingSoftDevice)
        acceptingSoftDevice 0) 5 idleSession = Except.ok (idleSession, [])) ∧
    (progressCharacteristicDiscovery acceptingSoftDevice idleSession
        = Except.ok (idleSession, []) ∧
      iterateStep (progressCharacteristicDiscovery acceptingSoftDevice) 5 idleSession
        = Except.ok (idleSession, [])) :=
  ⟨(progress_outside_phase_is_noop (launchCharacteristicDiscovery acceptingSoftDevice)
      acceptingSoftDevice 0 5 idleSession).1 rfl,
   (progress_outside_phase_is_noop (launchCharacteristicDiscovery acceptingSoftDevice)
      acceptingSoftDevice 0 5 idleSession).2 rfl⟩

/-! ## Session start (C10) -/

/-- C10: for every prior state and connection handle `h`,
`serviceDiscoveryStarted` yields `connHandle = h`, `serviceDiscoveryInProgress`
true, `characteristicDiscoveryInProgress` false, `srvCount = 0`, `currSrvInd = 0`
and a service buffer whose every entry is zero, and leaves the characteristic
buffer, `charCount` and `currCharInd` unchanged. -/
theorem session_start_postcondition (s : ServiceDiscovery) (h : Nat) :
    (serviceDiscoveryStarted s h).connHandle = h ∧
    (serviceDiscoveryStarted s h).serviceDiscoveryInProgress = true ∧
    (serviceDiscoveryStarted s h).characteristicDiscoveryInProgress = false ∧
    (serviceDiscoveryStarted s h).srvCount = 0 ∧
    (serviceDiscoveryStarted s h).currSrvInd = 0 ∧
    (∀ i x, (serviceDiscoveryStarted s h).services.get? i = some x →
      x = DiscoveredService.zero) ∧
    (∀ i : Int, 0 ≤ i → i < 4 →
      (serviceDiscoveryStarted s h).services.get? i = some DiscoveredService.zero) ∧
    (serviceDiscoveryStarted s h).characteristics = s.characteristics ∧
    (serviceDiscoveryStarted s h).charCount = s.charCount ∧
    (serviceDiscoveryStarted s h).currCharInd = s.currCharInd := by
  refine ⟨rfl, rfl, rfl, rfl, rfl, ?_, ?_, rfl, rfl, rfl⟩
  · intro i x hx
    have hmem := Array4.get?_mem _ i x hx
    simpa [serviceDiscoveryStarted, resetDiscoveredServices, Array4.fill, Array4.toList]
      using hmem
  · intro i h0 h4
    obtain ⟨x, hx⟩ := Array4.get?_isSome (serviceDiscoveryStarted s h).services i h0 h4
    have hmem := Array4.get?_mem _ i x hx
    have hz : x = DiscoveredService.zero := by
      simpa [serviceDiscoveryStarted, resetDiscoveredServices, Array4.fill, Array4.toList]
        using hmem
    rw [hx, hz]

/-! ## Emission of a page (C12) -/

/-- With any fuel of at least `charCount - currCharInd` the loop visits the rest
of the page and stops with `currCharInd = charCount`. -/
theorem characteristicLoop_run_of_le (n : Nat) (s : ServiceDiscovery)
    (hcip : s.characteristicDiscoveryInProgress = true)
    (h4 : s.charCount ≤ BLE_DB_DISCOVERY_MAX_CHAR_PER_SRV)
    (hi : s.currCharInd ≤ s.charCount)
    (hn : s.charCount ≤ s.currCharInd + n) :
    characteristicLoop n s = Except.ok ({ s with currCharInd := s.charCount }, pageLines s) := by
  induction n generalizing s with
  | zero => exact characteristicLoop_run 0 s hcip h4 (by omega)
  | succ n ih =>
    by_cases hlt : s.currCharInd < s.charCount
    · have h4' : s.charCount ≤ 4 := h4
      obtain ⟨c, hc⟩ := Array4.get?_isSome s.characteristics (s.currCharInd : Int)
        (by omega) (by omega)
      have hu : toUint8 (s.currCharInd + 1) = s.currCharInd + 1 := by
        unfold toUint8 UINT8_MODULUS
        omega
      have hstep := ih { s with currCharInd := toUint8 (s.currCharInd + 1) } hcip h4
        (by simp only [hu]; omega) (by simp only [hu]; omega)
      have hfull := characteristicLoop_run (s.charCount - s.currCharInd) s hcip h4 (by omega)
      have hk : s.charCount - s.currCharInd = (s.charCount - (s.currCharInd + 1)) + 1 := by
        omega
      have hshort := characteristicLoop_run (s.charCount - (s.currCharInd + 1))
        { s with currCharInd := toUint8 (s.currCharInd + 1) } hcip h4
        (by simp only [hu]; omega)
      rw [hk] at hfull
      unfold characteristicLoop at hfull
      rw [hshort] at hfull
      unfold characteristicLoop
      rw [hstep]
      exact hfull
    · have hidle := characteristicLoop_idle (n + 1) s (by omega)
      rw [hidle, ← characteristicLoop_idle 0 s (by omega)]
      exact characteristicLoop_run 0 s hcip h4 (by omega)

/-- The lines of a page are as many as the entries from `currCharInd` up to
`charCount`. -/
theorem pageLines_length (s : ServiceDiscovery)
    (h4 : s.charCount ≤ BLE_DB_DISCOVERY_MAX_CHAR_PER_SRV) :
    (pageLines s).length = s.charCount - s.currCharInd := by
  have h4' : s.charCount ≤ 4 := h4
  simp only [pageLines, List.length_map, List.length_take, List.length_drop, Array4.toList,
    List.length_cons, List.length_nil]
  omega

/-- The `j`-th line of a page is the line of buffer entry `currCharInd + j`. -/
theorem pageLines_getElem? (s : ServiceDiscovery) (j : Nat)
    (hj : j < s.charCount - s.currCharInd) :
    (pageLines s)[j]? =
      (s.characteristics.get? ((s.currCharInd + j : Nat) : Int)).map
        (fun c => Event.characteristicFound c.uuid c.valueHandle) := by
  rw [Array4.get?_ofNat]
  simp only [pageLines, List.getElem?_map]
  rw [List.getElem?_take_of_lt hj, List.getElem?_drop]

/-- Every line of a page is a characteristic line. -/
theorem mem_pageLines (s : ServiceDiscovery) (e : Event) (h : e ∈ pageLines s) :
    ∃ u v, e = Event.characteristicFound u v := by
  unfold pageLines at h
  obtain ⟨c, -, rfl⟩ := List.mem_map.mp h
  exact ⟨_, _, rfl⟩

/-- The page end prints no characteristic line. -/
theorem characteristicPageEnd_no_line (sd : SoftDevice) (s s' : ServiceDiscovery)
    (out : List Event) (h : characteristicPageEnd sd s = Except.ok (s', out)) (u v : Nat) :
    Event.characteristicFound u v ∉ out := by
  unfold characteristicPageEnd at h
  by_cases hcip : s.characteristicDiscoveryInProgress = true
  · simp only [hcip, if_true] at h
    cases hc : s.characteristics.get? ((s.currCharInd : Int) - 1) with
    | none => simp [hc] at h
    | some c =>
      cases hs : s.services.get? (s.currSrvInd : Int) with
      | none => simp [hc, hs] at h
      | some srv =>
        simp only [hc, hs] at h
        split_ifs at h
        · simp only [Except.ok.injEq, Prod.mk.injEq] at h
          rw [← h.2]
          simp
        · simp only [Except.ok.injEq, Prod.mk.injEq] at h
          rw [← h.2]
          simp
  · simp only [hcip] at h
    simp only [Bool.false_eq_true, if_false, Except.ok.injEq, Prod.mk.injEq] at h
    rw [← h.2]
    simp

/-- C12: with the characteristic phase active and `currCharInd ≤ charCount ≤ 4`,
the loop of `progressCharacteristicDiscovery` terminates (any fuel of at least
`charCount - currCharInd` gives its result) having printed exactly `pageLines`:
`charCount - currCharInd` lines, the `j`-th of which carries the uuid and value
handle of `characteristics[currCharInd + j]` as the buffer held them before the
step, so each entry from `currCharInd` to `charCount - 1` appears once, in
ascending index order.  Whenever the whole step returns, its events are these
lines followed by events that are not characteristic lines. -/
theorem page_is_emitted_once_in_order (sd : SoftDevice) (s : ServiceDiscovery) (fuel : Nat)
    (hcip : s.characteristicDiscoveryInProgress = true)
    (hi : s.currCharInd ≤ s.charCount)
    (h4 : s.charCount ≤ BLE_DB_DISCOVERY_MAX_CHAR_PER_SRV)
    (hfuel : s.charCount - s.currCharInd ≤ fuel) :
    characteristicLoop fuel s =
      Except.ok ({ s with currCharInd := s.charCount }, pageLines s) ∧
    (pageLines s).length = s.charCount - s.currCharInd ∧
    (∀ j, j < s.charCount - s.currCharInd →
      ∃ c, s.characteristics.get? ((s.currCharInd + j : Nat) : Int) = some c ∧
        (pageLines s)[j]? = some (Event.characteristicFound c.uuid c.valueHandle)) ∧
    (∀ s' out, progressCharacteristicDiscovery sd s = Except.ok (s', out) →
      ∃ rest, out = pageLines s ++ rest ∧ ∀ u v, Event.characteristicFound u v ∉ rest) := by
  refine ⟨characteristicLoop_run_of_le fuel s hcip h4 hi (by omega), pageLines_length s h4,
    ?_, ?_⟩
  · intro j hj
    have h4' : s.charCount ≤ 4 := h4
    obtain ⟨c, hc⟩ := Array4.get?_isSome s.characteristics
      ((s.currCharInd + j : Nat) : Int) (by omega) (by omega)
    refine ⟨c, hc, ?_⟩
    rw [pageLines_getElem? s j hj, hc]
    rfl
  · intro s' out hrun
    rw [progressCharacteristicDiscovery_active sd s hcip h4 hi] at hrun
    cases hend : characteristicPageEnd sd { s with currCharInd := s.charCount } with
    | error e => simp [hend] at hrun
    | ok r =>
      obtain ⟨s2, out2⟩ := r
      simp only [hend, Except.ok.injEq, Prod.mk.injEq] at hrun
      exact ⟨out2, hrun.2.symm, characteristicPageEnd_no_line sd _ s2 out2 hend⟩

/-- C12 at a page of two characteristics inside service `[1, 10]`: the loop
prints the two entries in buffer order. -/
theorem page_is_emitted_once_in_order_witness :
    characteristicLoop 2 twoCharacteristicPage =
      Except.ok ({ twoCharacteristicPage with currCharInd := 2 },
        [Event.characteristicFound 0x2A00 3, Event.characteristicFound 0x2A01 5]) :=
  (page_is_emitted_once_in_order acceptingSoftDevice twoCharacteristicPage 2 rfl
    (by decide) (by decide) (by decide)).1

/-! ## Handle progression in 16 bits (C11) -/

/-- C11 (the code at the failing input): the page just consumed ends with value
handle `0xFFFF` inside the service `[0xFFF0, 0xFFFF]`.  The request issued by
`progressCharacteristicDiscovery` starts at handle 0, which is not greater than
`0xFFFF`: the range `[0, 0xFFFF]` covers every handle already visited. -/
theorem wrapped_start_handle_revisits_covered_range (sd : SoftDevice) :
    topHandleCharacteristicPage.InRange ∧
    topHandleCharacteristicPage.characteristics.get?
      ((topHandleCharacteristicPage.charCount : Int) - 1)
      = some topHandleCharacteristicPage.characteristics.e0 ∧
    topHandleCharacteristicPage.characteristics.e0.valueHandle = 0xFFFF ∧
    toHandle (0xFFFF + 1) = 0 ∧
    requests
      (match progressCharacteristicDiscovery sd topHandleCharacteristicPage with
        | Except.ok (_, out) => out
        | Except.error _ => [])
      = [Event.characteristicsDiscover 7 0 0xFFFF] ∧
    ¬ (0 > topHandleCharacteristicPage.characteristics.e0.valueHandle) := by
  refine ⟨by decide, rfl, rfl, rfl, ?_, by decide⟩
  rw [progressCharacteristicDiscovery_request sd topHandleCharacteristicPage
    topHandleCharacteristicPage.characteristics.e0 topHandleCharacteristicPage.services.e0
    rfl (by decide) (by decide) rfl rfl (by decide)]
  rfl

/-- What does hold of every request the step issues: its start handle is below
its end handle, and unless the last value handle is `0xFFFF` it is that handle
plus one. -/
theorem request_range_is_ordered (sd : SoftDevice) (s s' : ServiceDiscovery)
    (out : List Event) (c : DiscoveredCharacteristic) (srv : DiscoveredService)
    (conn a b : Nat)
    (hcip : s.characteristicDiscoveryInProgress = true)
    (h4 : s.charCount ≤ BLE_DB_DISCOVERY_MAX_CHAR_PER_SRV)
    (hi : s.currCharInd ≤ s.charCount)
    (hc : s.characteristics.get? ((s.charCount : Int) - 1) = some c)
    (hs : s.services.get? (s.currSrvInd : Int) = some srv)
    (hrun : progressCharacteristicDiscovery sd s = Except.ok (s', out))
    (hreq : Event.characteristicsDiscover conn a b ∈ out) :
    a < b ∧ a = toHandle (c.valueHandle + 1) ∧ b = srv.endHandle ∧
    (c.valueHandle < 0xFFFF → a = c.valueHandle + 1) := by
  by_cases hlt : toHandle (c.valueHandle + 1) < srv.endHandle
  · rw [progressCharacteristicDiscovery_request sd s c srv hcip h4 hi hc hs hlt] at hrun
    simp only [Except.ok.injEq, Prod.mk.injEq] at hrun
    rw [← hrun.2, List.mem_append] at hreq
    rcases hreq with hline | hlast
    · obtain ⟨u, v, huv⟩ := mem_pageLines s _ hline
      cases huv
    · simp only [List.mem_cons, Event.characteristicsDiscover.injEq, List.mem_singleton,
        List.not_mem_nil, or_false] at hlast
      rcases hlast with ⟨-, ha, hb⟩ | hbad
      · subst ha hb
        refine ⟨hlt, rfl, rfl, ?_⟩
        intro htop
        unfold toHandle HANDLE_MODULUS
        omega
      · cases hbad
  · rw [progressCharacteristicDiscovery_handoff sd s c srv hcip h4 hi hc hs (by omega)] at hrun
    simp only [Except.ok.injEq, Prod.mk.injEq] at hrun
    rw [← hrun.2] at hreq
    obtain ⟨u, v, huv⟩ := mem_pageLines s _ hreq
    cases huv

/-! ## Service handle range (C13) -/

/-- C13 (counterexample): `setup(0x1800, 5, 3)` yields a service whose start
handle 5 is above its end handle 3. -/
theorem setup_accepts_reversed_range :
    (DiscoveredService.zero.setup 0x1800 5 3).startHandle = 5 ∧
    (DiscoveredService.zero.setup 0x1800 5 3).endHandle = 3 ∧
    ¬ ((DiscoveredService.zero.setup 0x1800 5 3).startHandle ≤
        (DiscoveredService.zero.setup 0x1800 5 3).endHandle) := by
  refine ⟨rfl, rfl, by decide⟩

/-- C13 (amended): `DiscoveredService::setup` stores its three arguments as they
are, whatever the service held before, so the result satisfies
`startHandle ≤ endHandle` exactly when it was called with `start ≤ end`. -/
theorem setup_stores_arguments (self : DiscoveredService) (uuidIn start finish : Nat) :
    (self.setup uuidIn start finish).uuid = uuidIn ∧
    (self.setup uuidIn start finish).startHandle = start ∧
    (self.setup uuidIn start finish).endHandle = finish ∧
    ((self.setup uuidIn start finish).startHandle ≤ (self.setup uuidIn start finish).endHandle
      ↔ start ≤ finish) :=
  ⟨rfl, rfl, rfl, Iff.rfl⟩

/-! ## One service at a time (C14) -/

/-- C14: let `launchCharacteristicDiscovery` perform
`characteristicDiscoveryStarted` and issue one characteristic request.  With
service discovery active and `currSrvInd < srvCount ≤ 4`,
`progressServiceDiscovery` returns with any fuel of at least one, its events are
exactly the line of `services[currSrvInd]` followed by the characteristic request
for `[startHandle, endHandle]` of that service on `connHandle`, it issues no
primary-service request, it leaves `currSrvInd` unchanged, and it ends in the
characteristic phase. -/
theorem one_service_at_a_time (launch : Launch) (sd : SoftDevice) (fuel : Nat)
    (s : ServiceDiscovery)
    (hl : ∀ t c a b, launch t c a b =
      (characteristicDiscoveryStarted t c, [Event.characteristicsDiscover c a b]))
    (hsip : s.serviceDiscoveryInProgress = true)
    (hlt : s.currSrvInd < s.srvCount)
    (h4 : s.srvCount ≤ BLE_DB_DISCOVERY_MAX_SRV) :
    ∃ srv s' out,
      s.services.get? (s.currSrvInd : Int) = some srv ∧
      progressServiceDiscovery launch sd (fuel + 1) s = Except.ok (s', out) ∧
      out = [Event.serviceFound srv.uuid srv.startHandle srv.endHandle,
             Event.characteristicsDiscover s.connHandle srv.startHandle srv.endHandle] ∧
      requests out =
        [Event.characteristicsDiscover s.connHandle srv.startHandle srv.endHandle] ∧
      (∀ c a, Event.primaryServicesDiscover c a ∉ out) ∧
      s'.currSrvInd = s.currSrvInd ∧
      s'.srvCount = s.srvCount ∧ s'.services = s.services ∧
      s'.characteristicDiscoveryInProgress = true ∧
      s'.serviceDiscoveryInProgress = false := by
  have h4' : s.srvCount ≤ 4 := h4
  obtain ⟨srv, hs⟩ := Array4.get?_isSome s.services (s.currSrvInd : Int) (by omega) (by omega)
  have hrun : progressServiceDiscovery launch sd (fuel + 1) s =
      Except.ok (characteristicDiscoveryStarted s s.connHandle,
        [Event.serviceFound srv.uuid srv.startHandle srv.endHandle,
         Event.characteristicsDiscover s.connHandle srv.startHandle srv.endHandle]) := by
    unfold progressServiceDiscovery serviceLoop
    simp only [hsip, hlt, decide_True, Bool.and_self, if_true, hs, hl]
    rw [serviceLoop_idle launch fuel _ (by simp [characteristicDiscoveryStarted])]
    simp [servicePageEnd, characteristicDiscoveryStarted]
  refine ⟨srv, _, _, hs, hrun, rfl, ?_, ?_, rfl, rfl, rfl, rfl, rfl⟩
  · simp [requests, Event.isRequest]
  · intro c a
    simp

/-- C14 at the service page `[0x1800, 1, 3]` on connection 7, with
`launchCharacteristicDiscovery` as modelled from the spec. -/
theorem one_service_at_a_time_witness :
    ∃ srv s' out,
      freshServicePage.services.get? (0 : Int) = some srv ∧
      progressServiceDiscovery (launchCharacteristicDiscovery acceptingSoftDevice)
        acceptingSoftDevice 1 freshServicePage = Except.ok (s', out) ∧
      out = [Event.serviceFound srv.uuid srv.startHandle srv.endHandle,
             Event.characteristicsDiscover 7 srv.startHandle srv.endHandle] ∧
      requests out = [Event.characteristicsDiscover 7 srv.startHandle srv.endHandle] ∧
      (∀ c a, Event.primaryServicesDiscover c a ∉ out) ∧
      s'.currSrvInd = 0 ∧
      s'.srvCount = 1 ∧ s'.services = freshServicePage.services ∧
      s'.characteristicDiscoveryInProgress = true ∧
      s'.serviceDiscoveryInProgress = false :=
  one_service_at_a_time (launchCharacteristicDiscovery acceptingSoftDevice)
    acceptingSoftDevice 0 freshServicePage (fun _ _ _ _ => rfl) rfl (by decide) (by decide)

/-! ## The boundary of the re-request test (C15) -/

/-- C15 (counterexample): in service `[1, 4]` the page ends with value handle 3,
so the next start handle 4 equals the end handle; `progressCharacteristicDiscovery`
issues no request and terminates the characteristic sub-phase.  And in the state
with `currCharInd = 2` above `charCount = 1`, which the claim admits, the start
handle is taken from `characteristics[1]`, not from the last characteristic of
the page: the request is for `[1, 10]`, not for the remaining `[4, 10]`. -/
theorem equal_start_and_end_handle_ends_the_phase :
    boundaryCharacteristicPage.characteristicDiscoveryInProgress = true ∧
    boundaryCharacteristicPage.charCount = 1 ∧
    boundaryCharacteristicPage.currSrvInd = 0 ∧
    boundaryCharacteristicPage.characteristics.e0.valueHandle + 1 ≤
      boundaryCharacteristicPage.services.e0.endHandle ∧
    progressCharacteristicDiscovery acceptingSoftDevice boundaryCharacteristicPage =
      Except.ok
        (terminateCharacteristicDiscovery
          (resetDiscoveredCharacteristics boundaryCharacteristicPage),
         [Event.characteristicFound 0x2A00 3]) ∧
    requests [Event.characteristicFound 0x2A00 3] = [] ∧
    (terminateCharacteristicDiscovery
      (resetDiscoveredCharacteristics boundaryCharacteristicPage)).characteristicDiscoveryInProgress
      = false ∧
    overrunCharacteristicPage.characteristicDiscoveryInProgress = true ∧
    overrunCharacteristicPage.charCount = 1 ∧
    overrunCharacteristicPage.currSrvInd = 0 ∧
    overrunCharacteristicPage.characteristics.e0.valueHandle + 1 ≤
      overrunCharacteristicPage.services.e0.endHandle ∧
    progressCharacteristicDiscovery acceptingSoftDevice overrunCharacteristicPage =
      Except.ok (resetDiscoveredCharacteristics overrunCharacteristicPage,
        [Event.characteristicsDiscover 7 1 10, Event.charDiscoveryReturned NRF_SUCCESS]) := by
  refine ⟨rfl, rfl, rfl, by decide, rfl, rfl, rfl, rfl, rfl, rfl, by decide, rfl⟩

/-- C15 (amended): with the characteristic phase active, `1 ≤ charCount ≤ 4`,
`currCharInd ≤ charCount`, `currSrvInd < 4`, `v` the last characteristic's value
handle and `e` the current service's end handle: if `v + 1 < e` the step issues
one characteristic request for `[v + 1, e]` and stays in the characteristic
phase; if `v + 1 = e` it issues no request, ends the characteristic sub-phase,
resumes the service phase and advances `currSrvInd` by one. -/
theorem request_only_when_start_is_below_end (sd : SoftDevice) (s : ServiceDiscovery)
    (c : DiscoveredCharacteristic) (srv : DiscoveredService)
    (hr : s.InRange)
    (hcip : s.characteristicDiscoveryInProgress = true)
    (_h1 : 1 ≤ s.charCount)
    (h4 : s.charCount ≤ BLE_DB_DISCOVERY_MAX_CHAR_PER_SRV)
    (hi : s.currCharInd ≤ s.charCount)
    (hsrv : s.currSrvInd < BLE_DB_DISCOVERY_MAX_SRV)
    (hc : s.characteristics.get? ((s.charCount : Int) - 1) = some c)
    (hs : s.services.get? (s.currSrvInd : Int) = some srv) :
    (c.valueHandle + 1 < srv.endHandle →
      ∃ s' out, progressCharacteristicDiscovery sd s = Except.ok (s', out) ∧
        requests out =
          [Event.characteristicsDiscover s.connHandle (c.valueHandle + 1) srv.endHandle] ∧
        s'.characteristicDiscoveryInProgress = true ∧
        s'.currSrvInd = s.currSrvInd) ∧
    (c.valueHandle + 1 = srv.endHandle →
      ∃ s' out, progressCharacteristicDiscovery sd s = Except.ok (s', out) ∧
        requests out = [] ∧
        s'.characteristicDiscoveryInProgress = false ∧
        s'.serviceDiscoveryInProgress = true ∧
        s'.currSrvInd = s.currSrvInd + 1) := by
  have hend : srv.endHandle < HANDLE_MODULUS :=
    (hr.1 srv (Array4.get?_mem _ _ _ hs)).2.2
  have hmod : HANDLE_MODULUS = 65536 := rfl
  constructor
  · intro hlt
    have hh : toHandle (c.valueHandle + 1) = c.valueHandle + 1 := by
      unfold toHandle
      exact Nat.mod_eq_of_lt (by omega)
    have hrun := progressCharacteristicDiscovery_request sd s c srv hcip h4 hi hc hs (by omega)
    rw [hh] at hrun
    refine ⟨_, _, hrun, ?_, hcip, rfl⟩
    rw [requests_append, requests_pageLines]
    simp [requests, Event.isRequest]
  · intro heq
    exact characteristic_handoff_below_top_handle sd s c srv hcip h4 hi hsrv hc hs
      (by omega) (by omega)

/-- C15 (amended) at the service `[1, 4]` whose page ends with value handle 3:
no request, and the service index moves from 0 to 1. -/
theorem request_only_when_start_is_below_end_witness :
    ∃ s' out,
      progressCharacteristicDiscovery acceptingSoftDevice boundaryCharacteristicPage
        = Except.ok (s', out) ∧
      requests out = [] ∧
      s'.characteristicDiscoveryInProgress = false ∧
      s'.serviceDiscoveryInProgress = true ∧
      s'.currSrvInd = 1 :=
  (request_only_when_start_is_below_end acceptingSoftDevice boundaryCharacteristicPage
    deviceNameCharacteristic { uuid := 0x1800, startHandle := 1, endHandle := 4 }
    (by decide) rfl (by decide) (by decide) (by decide) (by decide) rfl rfl).2 rfl

/-! ## Buffer reads (C16) -/

/-- C16 (the code at the failing input): with the characteristic phase active
and an empty page (`charCount = 0`, `currCharInd = 0`, `currSrvInd = 0`), the
loop does not run and the step then reads `characteristics[currCharInd - 1]`,
index `-1`, outside the buffer. -/
theorem empty_page_reads_before_the_buffer (sd : SoftDevice) :
    emptyCharacteristicPage.characteristicDiscoveryInProgress = true ∧
    emptyCharacteristicPage.charCount = 0 ∧
    emptyCharacteristicPage.currCharInd = 0 ∧
    emptyCharacteristicPage.currSrvInd = 0 ∧
    characteristicLoop 0 emptyCharacteristicPage = Except.ok (emptyCharacteristicPage, []) ∧
    emptyCharacteristicPage.characteristics.get?
      ((emptyCharacteristicPage.currCharInd : Int) - 1) = none ∧
    progressCharacteristicDiscovery sd emptyCharacteristicPage
      = Except.error Fault.outOfBounds :=
  ⟨rfl, rfl, rfl, rfl, rfl, rfl, rfl⟩

/-- With at least one characteristic in the page every read is inside its
buffer: the loop reads indices `currCharInd .. charCount - 1`, the page end reads
`characteristics[charCount - 1]` and `services[currSrvInd]`, and the step
returns. -/
theorem reads_in_bounds_on_nonempty_page (sd : SoftDevice) (s : ServiceDiscovery)
    (hcip : s.characteristicDiscoveryInProgress = true)
    (h1 : 1 ≤ s.charCount)
    (h4 : s.charCount ≤ BLE_DB_DISCOVERY_MAX_CHAR_PER_SRV)
    (hi : s.currCharInd ≤ s.charCount)
    (hsrv : s.currSrvInd < BLE_DB_DISCOVERY_MAX_SRV) :
    ∃ s' out, progressCharacteristicDiscovery sd s = Except.ok (s', out) := by
  have h4' : s.charCount ≤ 4 := h4
  have hsrv' : s.currSrvInd < 4 := hsrv
  obtain ⟨c, hc⟩ := Array4.get?_isSome s.characteristics ((s.charCount : Int) - 1)
    (by omega) (by omega)
  obtain ⟨srv, hs⟩ := Array4.get?_isSome s.services (s.currSrvInd : Int) (by omega) (by omega)
  by_cases hlt : toHandle (c.valueHandle + 1) < srv.endHandle
  · exact ⟨_, _, progressCharacteristicDiscovery_request sd s c srv hcip h4 hi hc hs hlt⟩
  · exact ⟨_, _, progressCharacteristicDiscovery_handoff sd s c srv hcip h4 hi hc hs
      (by omega)⟩

/-! ## Service bookkeeping (C17) -/

/-- The page end keeps the service bookkeeping. -/
theorem characteristicPageEnd_bookkeeping (sd : SoftDevice) (s : ServiceDiscovery) :
    (characteristicPageEnd sd s).Yields (ServiceBookkeepingKept s) := by
  unfold characteristicPageEnd
  by_cases hcip : s.characteristicDiscoveryInProgress = true
  · simp only [hcip, if_true]
    cases hc : s.characteristics.get? ((s.currCharInd : Int) - 1) with
    | none => simp [Outcome.Yields]
    | some c =>
      cases hs : s.services.get? (s.currSrvInd : Int) with
      | none => simp [Outcome.Yields]
      | some srv =>
        simp only
        split_ifs
        · simp [Outcome.Yields, ServiceBookkeepingKept, resetDiscoveredCharacteristics, hcip]
        · simp [Outcome.Yields, ServiceBookkeepingKept, resetDiscoveredCharacteristics,
            terminateCharacteristicDiscovery, hcip, toUint8, UINT8_MODULUS]
  · simp [hcip, Outcome.Yields, ServiceBookkeepingKept]

/-- C17: for every state, `progressCharacteristicDiscovery` (unless it reads
outside a buffer) leaves `connHandle`, `srvCount` and the whole `services` buffer
unchanged; it leaves `currSrvInd` unchanged whenever the characteristic flag
keeps its value, a changed `currSrvInd` occurs only in the terminating branch
(the characteristic flag goes from true to false and the service flag is set),
and in that branch `currSrvInd` is the old value plus one modulo 256. -/
theorem characteristic_progress_keeps_service_bookkeeping (sd : SoftDevice)
    (s : ServiceDiscovery) :
    (progressCharacteristicDiscovery sd s).Yields (ServiceBookkeepingKept s) := by
  unfold progressCharacteristicDiscovery
  rcases characteristicLoop_sound (s.charCount - s.currCharInd) s (by omega) with
    hbad | ⟨k, out, hok, -, -⟩
  · rw [hbad]
    rfl
  · rw [hok]
    have hend := characteristicPageEnd_bookkeeping sd { s with currCharInd := k }
    simp only
    revert hend
    cases characteristicPageEnd sd { s with currCharInd := k } with
    | error e => exact id
    | ok r => exact id

end BtleDiscovery
